import Mathlib

/-!
Shallow embedding of the core of the Random-Thinking canvas application:
the spatial layout allocator (src/lib/smart-layout.ts, src/lib/mindmap-layout.ts)
and the synchronization engine (src/lib/sync-manager.ts) together with its two
store collaborators (src/lib/db.ts over IndexedDB, the Supabase client in
src/unnamed/part_006 over the tables declared in src/supabase-schema.sql).

Conventions of the embedding:
- JavaScript numbers holding coordinates and sizes become rationals; epoch
  timestamps become integers.
- Asynchronous operations that a single call chain awaits sequentially become
  pure state-passing functions; each top-level sync operation receives the
  clock value used for every Date.now()/NOW() it performs.
- Fallible remote calls are driven by an explicit failure schedule: a list of
  booleans, one consumed per remote-store call, true meaning the call throws
  (an empty or exhausted schedule means every call succeeds).
-/

/-! ## Data model (src/types/index.ts, the full version in src/unnamed/part_021) -/

/-- Node type tag: text, sticky, ai-generated (deprecated) or mindmap. -/
inductive NodeType where
  | text
  | sticky
  | aiGenerated
  | mindmap
deriving DecidableEq, Repr

/-- AI provenance kind. -/
inductive AISource where
  | user
  | aiExpanded
  | aiSummarized
deriving DecidableEq, Repr

/-- Canvas coordinates of a node or of a chat window. -/
structure Position where
  x : ℚ
  y : ℚ
deriving DecidableEq, Repr

/-- Pixel size of a node or of a chat window. -/
structure Size where
  width : ℚ
  height : ℚ
deriving DecidableEq, Repr

/-- AI provenance metadata attached to a node. -/
structure AIMetadata where
  source : AISource
  prompt : Option String
  timestamp : ℤ
  originalNodeId : Option String
deriving DecidableEq, Repr

/-- Mind-map layout orientation. -/
inductive LayoutType where
  | vertical
  | horizontal
deriving DecidableEq, Repr

/-- Mind-map specific metadata of a node. -/
structure MindMapMetadata where
  level : ℤ
  collapsed : Bool
  order : ℚ
  layoutType : LayoutType
deriving DecidableEq, Repr

/-- Optional per-node style overrides. -/
structure NodeStyle where
  fontSize : Option ℚ
  fontWeightBold : Option Bool
  textColor : Option String
  backgroundColor : Option String
deriving DecidableEq, Repr

/-- A node on a canvas (interface CanvasNode). -/
structure CanvasNode where
  id : String
  type : NodeType
  content : String
  position : Position
  size : Size
  connections : List String
  aiMetadata : Option AIMetadata
  createdAt : ℤ
  updatedAt : ℤ
  color : Option String
  style : Option NodeStyle
  parentId : Option String
  childrenIds : Option (List String)
  mindMapMetadata : Option MindMapMetadata
deriving DecidableEq, Repr

/-! ## Spatial layout allocator (src/lib/smart-layout.ts) -/

/-- Input record of findNonOverlappingPosition (interface LayoutOptions). -/
structure LayoutOptions where
  width : ℚ
  height : ℚ
  nodes : List CanvasNode
  preferredPosition : Option Position
deriving DecidableEq, Repr

/-- Whether two axis-aligned rectangles overlap once padded by the spacing
margin on every side (function isOverlapping; the source's default spacing of
50 is passed explicitly by every caller of this embedding). -/
def isOverlapping (x1 y1 w1 h1 x2 y2 w2 h2 spacing : ℚ) : Bool :=
  decide (x1 < x2 + w2 + spacing) &&
  decide (x1 + w1 + spacing > x2) &&
  decide (y1 < y2 + h2 + spacing) &&
  decide (y1 + h1 + spacing > y2)

/-- Occupied footprint of a node: a level-0 mind-map node reserves 2000 by 1200,
every other node occupies its stored size (function getNodeOccupiedSize). -/
def getNodeOccupiedSize (node : CanvasNode) : Size :=
  match node.type, node.mindMapMetadata with
  | NodeType.mindmap, some m => if m.level = 0 then { width := 2000, height := 1200 } else node.size
  | _, _ => node.size

/-- Whether the rectangle at (x, y) of the given width and height overlaps the
occupied footprint of some node in the list (function checkCollision; the
spacing used is the default 50). -/
def checkCollision (x y width height : ℚ) (nodes : List CanvasNode) : Bool :=
  nodes.any fun node =>
    let occupied := getNodeOccupiedSize node
    isOverlapping x y width height node.position.x node.position.y occupied.width occupied.height 50

/-- The eight candidate offsets around the anchor footprint, in the source's
priority order: right, below, below-right, left, above, above-right,
below-left, above-left (the candidates array of findNonOverlappingPosition). -/
def candidatePositions (width height refX refY refW refH : ℚ) : List Position :=
  [ { x := refX + refW + 50, y := refY },
    { x := refX, y := refY + refH + 50 },
    { x := refX + refW + 50, y := refY + refH + 50 },
    { x := refX - width - 50, y := refY },
    { x := refX, y := refY - height - 50 },
    { x := refX + refW + 50, y := refY - height - 50 },
    { x := refX - width - 50, y := refY + refH + 50 },
    { x := refX - width - 50, y := refY - height - 50 } ]

/-- Integers from lo to hi inclusive, in order. -/
def intRange (lo hi : ℤ) : List ℤ :=
  (List.range (hi - lo + 1).toNat).map fun i => lo + i

/-- The grid points of the ring/spiral search of findNonOverlappingPosition in
scan order: radius 1 to 20, for each radius all (dx, dy) with dx, dy between
-radius and radius lying on the edge of the ring, at grid step 150. -/
def spiralPoints (refX refY : ℚ) : List Position :=
  (List.range 20).flatMap fun r =>
    let radius : ℤ := (r : ℤ) + 1
    (intRange (-radius) radius).flatMap fun (dx : ℤ) =>
      (intRange (-radius) radius).filterMap fun (dy : ℤ) =>
        if dx.natAbs = radius.natAbs ∨ dy.natAbs = radius.natAbs then
          some { x := refX + (dx : ℚ) * 150, y := refY + (dy : ℚ) * 150 }
        else
          none

/-- The node with maximal createdAt, found by the source's reduce over the
node list (later nodes win only on a strictly greater createdAt). -/
def latestCreatedNode (head : CanvasNode) (tail : List CanvasNode) : CanvasNode :=
  tail.foldl (fun latest node => if node.createdAt > latest.createdAt then node else latest) head

/-- Maximal x extent (position.x + occupied width) over a node list; the
source computes it with Math.max over a non-empty list. -/
def maxExtentX : List CanvasNode → ℚ
  | [] => 0
  | head :: tail =>
      (tail.map fun n => n.position.x + (getNodeOccupiedSize n).width).foldl max
        (head.position.x + (getNodeOccupiedSize head).width)

/-- Maximal y extent (position.y + occupied height) over a node list. -/
def maxExtentY : List CanvasNode → ℚ
  | [] => 0
  | head :: tail =>
      (tail.map fun n => n.position.y + (getNodeOccupiedSize n).height).foldl max
        (head.position.y + (getNodeOccupiedSize head).height)

/-- Function findNonOverlappingPosition: return the preferred position when
free (or when there is no node at all), otherwise try the eight candidate
offsets around the most recently created node, then the spiral grid search,
and finally fall back to just beyond the bottom-right extent of all nodes. -/
def findNonOverlappingPosition (options : LayoutOptions) : Position :=
  let width := options.width
  let height := options.height
  let spacing : ℚ := 50
  match options.nodes with
  | [] => options.preferredPosition.getD { x := 100, y := 100 }
  | head :: tail =>
    let nodes := head :: tail
    let preferredFree : Option Position :=
      match options.preferredPosition with
      | some p => if checkCollision p.x p.y width height nodes then none else some p
      | none => none
    match preferredFree with
    | some p => p
    | none =>
      let latestNode := latestCreatedNode head tail
      let refOccupied := getNodeOccupiedSize latestNode
      let refX := latestNode.position.x
      let refY := latestNode.position.y
      let candidates := candidatePositions width height refX refY refOccupied.width refOccupied.height
      match candidates.find? (fun c => !checkCollision c.x c.y width height nodes) with
      | some c => c
      | none =>
        match (spiralPoints refX refY).find? (fun c => !checkCollision c.x c.y width height nodes) with
        | some c => c
        | none =>
          { x := maxExtentX nodes + spacing, y := maxExtentY nodes + spacing }

/-! ## Helper lemmas about foldl max -/

theorem le_foldl_max (init : ℚ) (l : List ℚ) : init ≤ l.foldl max init := by
  induction l generalizing init with
  | nil => exact le_refl _
  | cons a t ih => exact le_trans (le_max_left init a) (ih (max init a))

theorem mem_le_foldl_max {x : ℚ} {l : List ℚ} (init : ℚ) (hx : x ∈ l) :
    x ≤ l.foldl max init := by
  induction l generalizing init with
  | nil => cases hx
  | cons a t ih =>
    rcases List.mem_cons.mp hx with h | h
    · subst h
      exact le_trans (le_max_right init x) (le_foldl_max _ _)
    · exact ih _ h

theorem extent_le_maxExtentX {n : CanvasNode} {nodes : List CanvasNode} (hn : n ∈ nodes) :
    n.position.x + (getNodeOccupiedSize n).width ≤ maxExtentX nodes := by
  match nodes with
  | [] => cases hn
  | head :: tail =>
    rcases List.mem_cons.mp hn with h | h
    · subst h
      exact le_foldl_max _ _
    · exact mem_le_foldl_max _ (List.mem_map_of_mem _ h)

theorem extent_le_maxExtentY {n : CanvasNode} {nodes : List CanvasNode} (hn : n ∈ nodes) :
    n.position.y + (getNodeOccupiedSize n).height ≤ maxExtentY nodes := by
  match nodes with
  | [] => cases hn
  | head :: tail =>
    rcases List.mem_cons.mp hn with h | h
    · subst h
      exact le_foldl_max _ _
    · exact mem_le_foldl_max _ (List.mem_map_of_mem _ h)

/-- The fallback position beyond the bottom-right extent of every node never
collides: the x separation alone already defeats the padded overlap test. -/
theorem checkCollision_fallback (w h : ℚ) (nodes : List CanvasNode) :
    checkCollision (maxExtentX nodes + 50) (maxExtentY nodes + 50) w h nodes = false := by
  rw [checkCollision, List.any_eq_false]
  intro n hn
  have hx : n.position.x + (getNodeOccupiedSize n).width + 50 ≤ maxExtentX nodes + 50 :=
    add_le_add_right (extent_le_maxExtentX hn) 50
  simp only [isOverlapping, Bool.and_eq_true, decide_eq_true_eq]
  intro hcontra
  exact absurd hcontra.1.1.1 (not_lt.mpr hx)

/-- C5: every position returned by findNonOverlappingPosition — preferred,
candidate offset, spiral cell or bottom-right fallback — passes the padded
collision test against every node footprint in the input list. -/
theorem findNonOverlappingPosition_no_collision (options : LayoutOptions) :
    checkCollision (findNonOverlappingPosition options).x (findNonOverlappingPosition options).y
      options.width options.height options.nodes = false := by
  rcases options with ⟨width, height, nodes, pref⟩
  cases nodes with
  | nil => simp [findNonOverlappingPosition, checkCollision]
  | cons head tail =>
    simp only [findNonOverlappingPosition]
    rcases pref with _ | p
    · dsimp only
      cases hfind : (candidatePositions width height (latestCreatedNode head tail).position.x
          (latestCreatedNode head tail).position.y
          (getNodeOccupiedSize (latestCreatedNode head tail)).width
          (getNodeOccupiedSize (latestCreatedNode head tail)).height).find?
          (fun c => !checkCollision c.x c.y width height (head :: tail)) with
      | some c =>
        simp only [hfind]
        have := List.find?_some hfind
        simpa using this
      | none =>
        simp only [hfind]
        cases hspiral : (spiralPoints (latestCreatedNode head tail).position.x
            (latestCreatedNode head tail).position.y).find?
            (fun c => !checkCollision c.x c.y width height (head :: tail)) with
        | some c =>
          simp only [hspiral]
          have := List.find?_some hspiral
          simpa using this
        | none =>
          simp only [hspiral]
          exact checkCollision_fallback _ _ _
    · dsimp only
      by_cases hc : checkCollision p.x p.y width height (head :: tail)
      · simp only [hc, if_true]
        cases hfind : (candidatePositions width height (latestCreatedNode head tail).position.x
            (latestCreatedNode head tail).position.y
            (getNodeOccupiedSize (latestCreatedNode head tail)).width
            (getNodeOccupiedSize (latestCreatedNode head tail)).height).find?
            (fun c => !checkCollision c.x c.y width height (head :: tail)) with
        | some c =>
          simp only [hfind]
          have := List.find?_some hfind
          simpa using this
        | none =>
          simp only [hfind]
          cases hspiral : (spiralPoints (latestCreatedNode head tail).position.x
              (latestCreatedNode head tail).position.y).find?
              (fun c => !checkCollision c.x c.y width height (head :: tail)) with
          | some c =>
            simp only [hspiral]
            have := List.find?_some hspiral
            simpa using this
          | none =>
            simp only [hspiral]
            exact checkCollision_fallback _ _ _
      · simp only [hc, if_false]
        simpa using hc

/-- The single pre-existing node of the collision-avoidance scenario: a text
node at the origin of size 300 by 150. -/
def collisionScenarioNode : CanvasNode :=
  { id := "existing", type := NodeType.text, content := "", position := { x := 0, y := 0 },
    size := { width := 300, height := 150 }, connections := [], aiMetadata := none,
    createdAt := 0, updatedAt := 0, color := none, style := none, parentId := none,
    childrenIds := none, mindMapMetadata := none }

/-- Collision-avoidance scenario input: request a 300 by 150 rectangle with no
preferred position on a canvas holding only collisionScenarioNode. -/
def collisionScenarioOptions : LayoutOptions :=
  { width := 300, height := 150, nodes := [collisionScenarioNode], preferredPosition := none }

/-- C8: whenever the node list is non-empty and no preferred position was
given — or one was given but collides — findNonOverlappingPosition returns
the first collision-free entry of candidatePositions — the eight canonical
offsets around the node of maximal createdAt, ordered right, below,
below-right, left, above, above-right, below-left, above-left (the seven
offsets the specification names appear in exactly this relative order) — and
on the scenario of one 300 by 150 node at the origin it returns x = 350
(300 plus the 50 margin) at the same y = 0. -/
theorem findNonOverlappingPosition_candidate_order :
    (∀ (options : LayoutOptions) (head : CanvasNode) (tail : List CanvasNode) (c : Position),
        options.nodes = head :: tail →
        (options.preferredPosition = none ∨
          ∃ p, options.preferredPosition = some p ∧
            checkCollision p.x p.y options.width options.height options.nodes = true) →
        (candidatePositions options.width options.height
            (latestCreatedNode head tail).position.x (latestCreatedNode head tail).position.y
            (getNodeOccupiedSize (latestCreatedNode head tail)).width
            (getNodeOccupiedSize (latestCreatedNode head tail)).height).find?
            (fun cand => !checkCollision cand.x cand.y options.width options.height options.nodes) =
          some c →
        findNonOverlappingPosition options = c) ∧
    findNonOverlappingPosition collisionScenarioOptions = { x := 350, y := 0 } := by
  constructor
  · intro options head tail c hnodes hpref hfind
    rcases options with ⟨width, height, nodes, pref⟩
    dsimp only at hnodes hpref hfind
    subst hnodes
    rcases hpref with hnone | ⟨p, hsome, hcoll⟩
    · subst hnone
      simp only [findNonOverlappingPosition]
      rw [hfind]
    · subst hsome
      simp only [findNonOverlappingPosition]
      dsimp only
      simp only [hcoll, if_true]
      rw [hfind]
  · norm_num [findNonOverlappingPosition, collisionScenarioOptions, collisionScenarioNode,
      checkCollision, isOverlapping, candidatePositions, latestCreatedNode,
      getNodeOccupiedSize, List.find?]

/-! ## Mind-map tree layout (src/lib/mindmap-layout.ts) -/

/-- Layout configuration LAYOUT_CONFIG.horizontal.levelSpacing. -/
def horizontalLevelSpacing : ℚ := 200

/-- Layout configuration LAYOUT_CONFIG.horizontal.nodeSpacing. -/
def horizontalNodeSpacing : ℚ := 80

/-- Layout configuration LAYOUT_CONFIG.vertical.levelSpacing. -/
def verticalLevelSpacing : ℚ := 150

/-- Layout configuration LAYOUT_CONFIG.vertical.nodeSpacing. -/
def verticalNodeSpacing : ℚ := 100

/-- Parent node together with its recursively built children (interface
TreeNode). -/
inductive TreeNode where
  | mk (node : CanvasNode) (children : List TreeNode)

/-- Lookup in the Map the source builds with nodes.forEach(set): a later
occurrence of the same id overwrites an earlier one. -/
def nodeMapGet (nodes : List CanvasNode) (id : String) : Option CanvasNode :=
  nodes.foldl (fun acc n => if n.id = id then some n else acc) none

/-- Sibling order key: mindMapMetadata?.order || 0. -/
def mindMapOrder (n : CanvasNode) : ℚ :=
  match n.mindMapMetadata with
  | some m => m.order
  | none => 0

/-- Function buildSubtree: collect the childrenIds that resolve in the node
map, sort them by sibling order (the JavaScript sort is stable, hence
mergeSort), and recurse. The fuel argument makes the recursion through the
id graph well-founded: the source recurses unboundedly and diverges on a
cyclic childrenIds graph, while this embedding truncates once fuel runs out;
with fuel at least the node count the two agree on every acyclic input. -/
def buildSubtree (nodes : List CanvasNode) : Nat → CanvasNode → TreeNode
  | 0, node => TreeNode.mk node []
  | fuel + 1, node =>
    let children :=
      match node.childrenIds with
      | some ids =>
        let sortedChildren :=
          (ids.filterMap fun cid => nodeMapGet nodes cid).mergeSort
            fun a b => decide (mindMapOrder a ≤ mindMapOrder b)
        sortedChildren.map fun child => buildSubtree nodes fuel child
      | none => []
    TreeNode.mk node children

/-- Function buildTree: resolve the root in the node map and build its
subtree (fuel = number of nodes suffices for every acyclic input). -/
def buildTree (nodes : List CanvasNode) (rootId : String) : Option TreeNode :=
  match nodeMapGet nodes rootId with
  | none => none
  | some root => some (buildSubtree nodes nodes.length root)

/-- Math.max over a non-empty list of rationals (the empty case never arises
at the call sites, which guard on a non-empty children list). -/
def qListMax : List ℚ → ℚ
  | [] => 0
  | h :: t => t.foldl max h

/-- Accumulated height of stacked child subtrees: reduce plus spacing per
entry, minus one trailing spacing. -/
def totalStackedHeight (childSizes : List Size) (spacing : ℚ) : ℚ :=
  childSizes.foldl (fun sum s => sum + s.height + spacing) 0 - spacing

/-- Accumulated width of stacked child subtrees. -/
def totalStackedWidth (childSizes : List Size) (spacing : ℚ) : ℚ :=
  childSizes.foldl (fun sum s => sum + s.width + spacing) 0 - spacing

mutual

/-- Function calculateSubtreeSize: bounding box of a subtree; a leaf is its
own size, otherwise children stack vertically (horizontal layout) or
horizontally (vertical layout) with the configured gaps. -/
def calculateSubtreeSize : TreeNode → LayoutType → Size
  | TreeNode.mk node children, layoutType =>
    match children with
    | [] => { width := node.size.width, height := node.size.height }
    | c :: cs =>
      let childSizes := calculateSubtreeSizes (c :: cs) layoutType
      match layoutType with
      | LayoutType.horizontal =>
        { width := node.size.width + horizontalLevelSpacing + qListMax (childSizes.map Size.width),
          height := max node.size.height (totalStackedHeight childSizes horizontalNodeSpacing) }
      | LayoutType.vertical =>
        { width := max node.size.width (totalStackedWidth childSizes verticalNodeSpacing),
          height := node.size.height + verticalLevelSpacing + qListMax (childSizes.map Size.height) }

/-- Sizes of a list of subtrees (the source's childSizes array). -/
def calculateSubtreeSizes : List TreeNode → LayoutType → List Size
  | [], _ => []
  | t :: ts, layoutType => calculateSubtreeSize t layoutType :: calculateSubtreeSizes ts layoutType

end

mutual

/-- Function applyLayout: record the current node at basePosition, then place
each child subtree in order, advancing the running coordinate by the child
subtree extent plus the sibling gap. Returns the bindings in the insertion
order the source performs on its Map. -/
def applyLayout : TreeNode → LayoutType → Position → List (String × Position)
  | TreeNode.mk node children, layoutType, basePosition =>
    (node.id, basePosition) ::
      match children with
      | [] => []
      | c :: cs =>
        let childSizes := calculateSubtreeSizes (c :: cs) layoutType
        match layoutType with
        | LayoutType.horizontal =>
          applyChildren (c :: cs) LayoutType.horizontal node basePosition
            (basePosition.y - totalStackedHeight childSizes horizontalNodeSpacing / 2)
        | LayoutType.vertical =>
          applyChildren (c :: cs) LayoutType.vertical node basePosition
            (basePosition.x - totalStackedWidth childSizes verticalNodeSpacing / 2)

/-- One step of the source's forEach over children: place the child subtree
centered on the running coordinate and advance it. -/
def applyChildren : List TreeNode → LayoutType → CanvasNode → Position → ℚ → List (String × Position)
  | [], _, _, _, _ => []
  | c :: cs, layoutType, parent, basePosition, current =>
    let childSize := calculateSubtreeSize c layoutType
    match layoutType with
    | LayoutType.horizontal =>
      applyLayout c LayoutType.horizontal
          { x := basePosition.x + parent.size.width + horizontalLevelSpacing,
            y := current + childSize.height / 2 } ++
        applyChildren cs LayoutType.horizontal parent basePosition
          (current + childSize.height + horizontalNodeSpacing)
    | LayoutType.vertical =>
      applyLayout c LayoutType.vertical
          { x := current + childSize.width / 2,
            y := basePosition.y + parent.size.height + verticalLevelSpacing } ++
        applyChildren cs LayoutType.vertical parent basePosition
          (current + childSize.width + verticalNodeSpacing)

end

/-- Function calculateMindMapLayout: build the tree, start from the root's
current position (default 100, 100) and lay out every node of the tree. The
returned association list is the insertion sequence of the source's Map from
node id to new position. -/
def calculateMindMapLayout (nodes : List CanvasNode) (rootNodeId : String)
    (layoutType : LayoutType) : List (String × Position) :=
  match buildTree nodes rootNodeId with
  | none => []
  | some tree =>
    let startPosition :=
      match nodes.find? (fun n => n.id = rootNodeId) with
      | some rootNode => rootNode.position
      | none => ({ x := 100, y := 100 } : Position)
    applyLayout tree layoutType startPosition

/-- Mind-map node builder for the collapse scenario. -/
def mindMapTestNode (id : String) (childrenIds : Option (List String)) (level : ℤ)
    (collapsed : Bool) : CanvasNode :=
  { id := id, type := NodeType.mindmap, content := "", position := { x := 0, y := 0 },
    size := { width := 200, height := 100 }, connections := [], aiMetadata := none,
    createdAt := 0, updatedAt := 0, color := none, style := none, parentId := none,
    childrenIds := childrenIds,
    mindMapMetadata := some { level := level, collapsed := collapsed, order := 0,
                              layoutType := LayoutType.horizontal } }

/-- Root of the collapse scenario. -/
def collapsedScenarioRoot : CanvasNode := mindMapTestNode "r" (some ["a"]) 0 false

/-- Middle node of the collapse scenario, with collapsed set. -/
def collapsedScenarioMid : CanvasNode := mindMapTestNode "a" (some ["b"]) 1 true

/-- Leaf of the collapse scenario, a descendant of the collapsed node. -/
def collapsedScenarioLeaf : CanvasNode := mindMapTestNode "b" none 2 false

/-- The three nodes of the collapse scenario. -/
def collapsedScenarioNodes : List CanvasNode :=
  [collapsedScenarioRoot, collapsedScenarioMid, collapsedScenarioLeaf]

/-- C3 counterexample: node a is collapsed, node b is a descendant of a, yet
the position map returned by calculateMindMapLayout contains an entry for b
(its keys are exactly r, a, b) — the layout does not exclude descendants of
collapsed nodes. -/
theorem calculateMindMapLayout_keeps_collapsed_descendants :
    (calculateMindMapLayout collapsedScenarioNodes "r" LayoutType.horizontal).map Prod.fst =
      ["r", "a", "b"] ∧
    collapsedScenarioMid.mindMapMetadata =
      some { level := 1, collapsed := true, order := 0, layoutType := LayoutType.horizontal } := by
  constructor
  · simp [calculateMindMapLayout, buildTree, nodeMapGet, buildSubtree, applyLayout,
      applyChildren, calculateSubtreeSizes, calculateSubtreeSize, mindMapOrder,
      List.find?, collapsedScenarioNodes, collapsedScenarioRoot, collapsedScenarioMid,
      collapsedScenarioLeaf, mindMapTestNode]
  · rfl

/-- Overwrite the collapsed flag of a node's mind-map metadata (identity on
nodes without metadata); every other field is untouched. -/
def setCollapsed (b : Bool) (n : CanvasNode) : CanvasNode :=
  { n with mindMapMetadata := n.mindMapMetadata.map fun m => { m with collapsed := b } }

theorem setCollapsed_id (b : Bool) (n : CanvasNode) : (setCollapsed b n).id = n.id := rfl

theorem setCollapsed_size (b : Bool) (n : CanvasNode) : (setCollapsed b n).size = n.size := rfl

theorem setCollapsed_childrenIds (b : Bool) (n : CanvasNode) :
    (setCollapsed b n).childrenIds = n.childrenIds := rfl

theorem setCollapsed_position (b : Bool) (n : CanvasNode) :
    (setCollapsed b n).position = n.position := rfl

theorem mindMapOrder_setCollapsed (b : Bool) (n : CanvasNode) :
    mindMapOrder (setCollapsed b n) = mindMapOrder n := by
  cases h : n.mindMapMetadata with
  | none => simp [mindMapOrder, setCollapsed, h]
  | some m => simp [mindMapOrder, setCollapsed, h]

mutual

/-- Apply a node transformation to every node of a built tree. -/
def mapTreeNode (f : CanvasNode → CanvasNode) : TreeNode → TreeNode
  | TreeNode.mk n children => TreeNode.mk (f n) (mapTreeNodes f children)

/-- Apply a node transformation to every tree of a list. -/
def mapTreeNodes (f : CanvasNode → CanvasNode) : List TreeNode → List TreeNode
  | [] => []
  | t :: ts => mapTreeNode f t :: mapTreeNodes f ts

end

theorem mapTreeNodes_eq_map (f : CanvasNode → CanvasNode) (l : List TreeNode) :
    mapTreeNodes f l = l.map (mapTreeNode f) := by
  induction l with
  | nil => rfl
  | cons t ts ih => simp only [mapTreeNodes, List.map_cons, ih]

theorem nodeMapGet_foldl_setCollapsed (b : Bool) (id : String) (l : List CanvasNode)
    (acc : Option CanvasNode) :
    (l.map (setCollapsed b)).foldl (fun acc n => if n.id = id then some n else acc)
        (acc.map (setCollapsed b)) =
      (l.foldl (fun acc n => if n.id = id then some n else acc) acc).map (setCollapsed b) := by
  induction l generalizing acc with
  | nil => rfl
  | cons n t ih =>
    simp only [List.map_cons, List.foldl_cons, setCollapsed_id]
    by_cases h : n.id = id
    · simp only [h, if_true]
      exact ih (some n)
    · simp only [h, if_false]
      exact ih acc

theorem nodeMapGet_setCollapsed (b : Bool) (nodes : List CanvasNode) (id : String) :
    nodeMapGet (nodes.map (setCollapsed b)) id = (nodeMapGet nodes id).map (setCollapsed b) :=
  nodeMapGet_foldl_setCollapsed b id nodes none

theorem buildSubtree_setCollapsed (b : Bool) (nodes : List CanvasNode) :
    ∀ (fuel : Nat) (node : CanvasNode),
      buildSubtree (nodes.map (setCollapsed b)) fuel (setCollapsed b node) =
        mapTreeNode (setCollapsed b) (buildSubtree nodes fuel node) := by
  intro fuel
  induction fuel with
  | zero =>
    intro node
    simp [buildSubtree, mapTreeNode, mapTreeNodes]
  | succ fuel ih =>
    intro node
    simp only [buildSubtree, setCollapsed_childrenIds]
    cases node.childrenIds with
    | none => simp [mapTreeNode, mapTreeNodes]
    | some ids =>
      simp only [mapTreeNode, mapTreeNodes_eq_map, TreeNode.mk.injEq, true_and]
      have hget : (fun cid => nodeMapGet (nodes.map (setCollapsed b)) cid) =
          fun cid => (nodeMapGet nodes cid).map (setCollapsed b) := by
        funext cid
        exact nodeMapGet_setCollapsed b nodes cid
      rw [hget]
      have hfm : (ids.filterMap fun cid => (nodeMapGet nodes cid).map (setCollapsed b)) =
          (ids.filterMap fun cid => nodeMapGet nodes cid).map (setCollapsed b) :=
        (List.map_filterMap _ _ ids).symm
      rw [hfm]
      rw [← List.map_mergeSort (r := fun a b => decide (mindMapOrder a ≤ mindMapOrder b))]
      · rw [List.map_map, List.map_map]
        exact List.map_congr_left fun child _ => ih child
      · intro a _ c _
        rw [mindMapOrder_setCollapsed, mindMapOrder_setCollapsed]

mutual

theorem calculateSubtreeSize_setCollapsed (b : Bool) (t : TreeNode) (lt : LayoutType) :
    calculateSubtreeSize (mapTreeNode (setCollapsed b) t) lt = calculateSubtreeSize t lt := by
  match t with
  | TreeNode.mk n children =>
    match children with
    | [] => simp [mapTreeNode, mapTreeNodes, calculateSubtreeSize, setCollapsed_size]
    | c :: cs =>
      have hsizes := calculateSubtreeSizes_setCollapsed b (c :: cs) lt
      simp only [mapTreeNodes] at hsizes
      cases lt with
      | horizontal =>
        simp only [mapTreeNode, mapTreeNodes, calculateSubtreeSize, setCollapsed_size]
        rw [hsizes]
      | vertical =>
        simp only [mapTreeNode, mapTreeNodes, calculateSubtreeSize, setCollapsed_size]
        rw [hsizes]

theorem calculateSubtreeSizes_setCollapsed (b : Bool) (l : List TreeNode) (lt : LayoutType) :
    calculateSubtreeSizes (mapTreeNodes (setCollapsed b) l) lt = calculateSubtreeSizes l lt := by
  match l with
  | [] => rfl
  | t :: ts =>
    simp only [mapTreeNodes, calculateSubtreeSizes]
    rw [calculateSubtreeSize_setCollapsed b t lt, calculateSubtreeSizes_setCollapsed b ts lt]

end

mutual

theorem applyLayout_setCollapsed (b : Bool) (t : TreeNode) (lt : LayoutType) (base : Position) :
    applyLayout (mapTreeNode (setCollapsed b) t) lt base = applyLayout t lt base := by
  match t with
  | TreeNode.mk n children =>
    match children with
    | [] => simp [mapTreeNode, mapTreeNodes, applyLayout, setCollapsed_id]
    | c :: cs =>
      have hsizes := calculateSubtreeSizes_setCollapsed b (c :: cs) lt
      simp only [mapTreeNodes] at hsizes
      have hkids := applyChildren_setCollapsed b (c :: cs) lt n base
      simp only [mapTreeNodes] at hkids
      cases lt with
      | horizontal =>
        simp only [mapTreeNode, mapTreeNodes, applyLayout, setCollapsed_id, setCollapsed_size]
        rw [hsizes]
        rw [hkids LayoutType.horizontal]
      | vertical =>
        simp only [mapTreeNode, mapTreeNodes, applyLayout, setCollapsed_id, setCollapsed_size]
        rw [hsizes]
        rw [hkids LayoutType.vertical]

theorem applyChildren_setCollapsed (b : Bool) (l : List TreeNode) (lt : LayoutType)
    (parent : CanvasNode) (base : Position) :
    ∀ (lt2 : LayoutType) (current : ℚ),
      applyChildren (mapTreeNodes (setCollapsed b) l) lt2 (setCollapsed b parent) base current =
        applyChildren l lt2 parent base current := by
  match l with
  | [] => intro lt2 current; rfl
  | t :: ts =>
    intro lt2 current
    have hsize := calculateSubtreeSize_setCollapsed b t lt2
    cases lt2 with
    | horizontal =>
      simp only [mapTreeNodes, applyChildren, setCollapsed_size]
      rw [hsize, applyLayout_setCollapsed b t LayoutType.horizontal,
        applyChildren_setCollapsed b ts lt parent base LayoutType.horizontal]
    | vertical =>
      simp only [mapTreeNodes, applyChildren, setCollapsed_size]
      rw [hsize, applyLayout_setCollapsed b t LayoutType.vertical,
        applyChildren_setCollapsed b ts lt parent base LayoutType.vertical]

end

/-- C3 amended: calculateMindMapLayout never consults the collapsed flag —
overwriting every node's collapsed flag (with true or with false) leaves the
computed layout, keys and positions alike, unchanged; in particular the
descendants of collapsed nodes are laid out exactly like everything else. -/
theorem calculateMindMapLayout_ignores_collapsed (b : Bool) (nodes : List CanvasNode)
    (rootNodeId : String) (layoutType : LayoutType) :
    calculateMindMapLayout (nodes.map (setCollapsed b)) rootNodeId layoutType =
      calculateMindMapLayout nodes rootNodeId layoutType := by
  simp only [calculateMindMapLayout, buildTree, nodeMapGet_setCollapsed, List.length_map]
  cases hroot : nodeMapGet nodes rootNodeId with
  | none => simp
  | some root =>
    simp only [Option.map_some']
    rw [buildSubtree_setCollapsed, applyLayout_setCollapsed]
    have hfind : (nodes.map (setCollapsed b)).find? (fun n => n.id = rootNodeId) =
        (nodes.find? (fun n => n.id = rootNodeId)).map (setCollapsed b) := by
      rw [List.find?_map]
      rfl
    rw [hfind]
    cases nodes.find? (fun n => n.id = rootNodeId) with
    | none => rfl
    | some r => rfl

/-! ## Chat data model (src/unnamed/part_021) -/

/-- Role of a chat message. -/
inductive ChatRole where
  | user
  | assistant
  | system
deriving DecidableEq, Repr

/-- A referenced node excerpt attached to a chat message or session. -/
structure ChatReference where
  id : String
  nodeId : String
  content : String
  timestamp : ℤ
deriving DecidableEq, Repr

/-- Confirmation state of a tool call. -/
inductive ToolStatus where
  | pending
  | confirmed
  | rejected
deriving DecidableEq, Repr

/-- Tool invocation recorded on an assistant message; the input payload is an
opaque JSON object the sync engine never inspects, kept here as its serialized
text. -/
structure ToolCallInfo where
  toolUseId : String
  tool : String
  input : String
  nodeIds : List String
  status : ToolStatus
deriving DecidableEq, Repr

/-- One chat message embedded in a session. -/
structure ChatMessage where
  id : String
  canvasId : String
  role : ChatRole
  content : String
  timestamp : ℤ
  references : Option (List ChatReference)
  toolCalls : Option (List ToolCallInfo)
deriving DecidableEq, Repr

/-- A chat session (interface ChatSession). -/
structure ChatSession where
  id : String
  canvasId : String
  name : String
  messages : List ChatMessage
  createdAt : ℤ
  updatedAt : ℤ
  isOpen : Bool
  position : Position
  size : Size
  startTimestamp : ℤ
  initialNodeSnapshot : List String
  references : List ChatReference
deriving DecidableEq, Repr

/-! ## Local store (src/lib/db.ts, Dexie over IndexedDB)

Each table is a list of records; Dexie enforces a unique primary key `id`, so
a well-formed store has pairwise distinct ids per table (theorems that need
this take it as a hypothesis). An update addressed to an id is modelled as a
map over the table replacing the matching record. -/

/-- A canvas row as the local store keeps it: CanvasData whose nodes field
holds only node-id references (the sync engine writes it that way in
saveCloudCanvasToLocal). -/
structure LocalCanvas where
  id : String
  name : String
  nodes : List String
  createdAt : ℤ
  updatedAt : ℤ
deriving DecidableEq, Repr

/-- The three Dexie tables of CanvasDatabase. -/
structure LocalStore where
  canvases : List LocalCanvas
  nodes : List CanvasNode
  chatSessions : List ChatSession
deriving DecidableEq, Repr

namespace Db

/-- CanvasDatabase.getCanvas: primary-key lookup. -/
def getCanvas (s : LocalStore) (id : String) : Option LocalCanvas :=
  s.canvases.find? fun c => c.id = id

/-- CanvasDatabase.getAllCanvases: orderBy updatedAt, reversed — descending
updatedAt (the relative order of equal timestamps follows the underlying
index and is irrelevant to every claim below). -/
def getAllCanvases (s : LocalStore) : List LocalCanvas :=
  s.canvases.mergeSort fun a b => decide (b.updatedAt ≤ a.updatedAt)

/-- CanvasDatabase.updateCanvas: merge the given partial fields into the
record with this id and stamp updatedAt with Date.now(); a missing id is a
no-op. The two partial shapes the sync engine uses are name and nodes. -/
def updateCanvas (s : LocalStore) (id : String) (name? : Option String)
    (nodes? : Option (List String)) (now : ℤ) : LocalStore :=
  { s with
    canvases := s.canvases.map fun c =>
      if c.id = id then
        { c with name := name?.getD c.name, nodes := nodes?.getD c.nodes, updatedAt := now }
      else c }

/-- Dexie canvases.add as saveCloudCanvasToLocal uses it: the caller has
checked that the id is absent (a duplicate key would reject). -/
def addCanvas (s : LocalStore) (c : LocalCanvas) : LocalStore :=
  { s with canvases := s.canvases ++ [c] }

/-- CanvasDatabase.getCanvasNodes: resolve the canvas's node-id references
against the nodes table ([] when the canvas is absent). Dexie returns the
records ordered by primary key; the claims below never depend on this order,
so the table order is kept. -/
def getCanvasNodes (s : LocalStore) (canvasId : String) : List CanvasNode :=
  match getCanvas s canvasId with
  | none => []
  | some canvas => s.nodes.filter fun n => canvas.nodes.contains n.id

/-- Dexie nodes.get: primary-key lookup. -/
def getNode (s : LocalStore) (id : String) : Option CanvasNode :=
  s.nodes.find? fun n => n.id = id

/-- Dexie nodes.add as saveCloudCanvasToLocal uses it (id checked absent). -/
def addNode (s : LocalStore) (n : CanvasNode) : LocalStore :=
  { s with nodes := s.nodes ++ [n] }

/-- CanvasDatabase.updateNode as the sync engine calls it — with a complete
node as the update object, so the merge replaces every field and then stamps
updatedAt with Date.now(). -/
def updateNodeFull (s : LocalStore) (id : String) (node : CanvasNode) (now : ℤ) : LocalStore :=
  { s with
    nodes := s.nodes.map fun n => if n.id = id then { node with updatedAt := now } else n }

/-- CanvasDatabase.getChatSessions: the sessions of one canvas sorted by
createdAt ascending. -/
def getChatSessions (s : LocalStore) (canvasId : String) : List ChatSession :=
  (s.chatSessions.filter fun cs => cs.canvasId = canvasId).mergeSort
    fun a b => decide (a.createdAt ≤ b.createdAt)

/-- CanvasDatabase.updateChatSession as the sync engine calls it — with a
complete session as the update object; a missing id is a no-op (the pull path
never creates sessions locally). -/
def updateChatSessionFull (s : LocalStore) (id : String) (session : ChatSession) (now : ℤ) :
    LocalStore :=
  { s with
    chatSessions := s.chatSessions.map fun cs =>
      if cs.id = id then { session with updatedAt := now } else cs }

end Db

/-! ## Remote store (SupabaseDB in src/unnamed/part_006 over the tables of
src/supabase-schema.sql)

The tables enforce a unique primary key id. Upserts with onConflict id
replace every column of the conflicting row with the payload; the schema's
BEFORE UPDATE triggers then overwrite updated_at with NOW() on every update
(but not on a fresh insert). ISO timestamp conversion is the identity here. -/

/-- A row of the canvases table. -/
structure RemoteCanvasRow where
  id : String
  userId : String
  name : String
  createdAt : ℤ
  updatedAt : ℤ
  deletedAt : Option ℤ
deriving DecidableEq, Repr

/-- A row of the nodes table (the InsertNode shape of bulkUpsertNodes). -/
structure RemoteNodeRow where
  id : String
  canvasId : String
  userId : String
  type : NodeType
  content : String
  position : Position
  size : Size
  connections : List String
  color : Option String
  style : NodeStyle
  aiMetadata : Option AIMetadata
  parentId : Option String
  childrenIds : List String
  mindMapMetadata : Option MindMapMetadata
  createdAt : ℤ
  updatedAt : ℤ
deriving DecidableEq, Repr

/-- A row of the chat_sessions table. -/
structure RemoteChatSessionRow where
  id : String
  canvasId : String
  userId : String
  name : String
  messages : List ChatMessage
  isOpen : Bool
  position : Position
  size : Size
  startTimestamp : Option ℤ
  initialNodeSnapshot : List String
  references : List ChatReference
  createdAt : ℤ
  updatedAt : ℤ
deriving DecidableEq, Repr

/-- The three remote tables. -/
structure RemoteStore where
  canvases : List RemoteCanvasRow
  nodes : List RemoteNodeRow
  chatSessions : List RemoteChatSessionRow
deriving DecidableEq, Repr

/-- The empty NodeStyle object the push substitutes for an absent style. -/
def emptyNodeStyle : NodeStyle :=
  { fontSize := none, fontWeightBold := none, textColor := none, backgroundColor := none }

/-- A JavaScript falsy-to-undefined coercion on an optional string
(value || undefined): the empty string also becomes undefined. -/
def orUndefined : Option String → Option String
  | some s => if s = "" then none else some s
  | none => none

/-- Keyed upsert with onConflict id over one table: when a row with the same
key exists, every matching row is replaced by the stamped payload (the stamp
is the updated_at trigger); otherwise the payload row is appended as a fresh
insert, untouched by the trigger. -/
def upsertByKey {α : Type} (key : α → String) (stamp : α → α) (rows : List α) (row : α) :
    List α :=
  if rows.any fun x => key x = key row then
    rows.map fun x => if key x = key row then stamp row else x
  else
    rows ++ [row]

/-- The CanvasData view SupabaseDB returns for a canvas: the row joined with
its converted nodes. -/
structure CloudCanvas where
  id : String
  name : String
  nodes : List CanvasNode
  createdAt : ℤ
  updatedAt : ℤ
deriving DecidableEq, Repr

namespace Supa

/-- Raw canvases-table lookup by id (no deleted_at filter). -/
def getCanvasRow (r : RemoteStore) (canvasId : String) : Option RemoteCanvasRow :=
  r.canvases.find? fun c => c.id = canvasId

/-- SupabaseDB.dbNodeToCanvasNode: convert a node row back to a CanvasNode
(content || empty string is the identity on stored strings; color and
parent_id pass through the falsy coercion; children_ids and style come back
always present). -/
def dbNodeToCanvasNode (row : RemoteNodeRow) : CanvasNode :=
  { id := row.id, type := row.type, content := row.content, position := row.position,
    size := row.size, connections := row.connections, color := orUndefined row.color,
    style := some row.style, aiMetadata := row.aiMetadata,
    parentId := orUndefined row.parentId, childrenIds := some row.childrenIds,
    mindMapMetadata := row.mindMapMetadata, createdAt := row.createdAt,
    updatedAt := row.updatedAt }

/-- SupabaseDB.getCanvasNodes: the node rows of one canvas ordered by
created_at ascending, converted. -/
def getCanvasNodes (r : RemoteStore) (canvasId : String) : List CanvasNode :=
  ((r.nodes.filter fun n => n.canvasId = canvasId).mergeSort
      fun a b => decide (a.createdAt ≤ b.createdAt)).map dbNodeToCanvasNode

/-- SupabaseDB.getCanvas: id lookup with no deleted_at filter — a soft-deleted
canvas is still returned; the view joins the canvas's nodes. -/
def getCanvas (r : RemoteStore) (canvasId : String) : Option CloudCanvas :=
  match getCanvasRow r canvasId with
  | none => none
  | some row =>
      some { id := row.id, name := row.name, nodes := getCanvasNodes r canvasId,
             createdAt := row.createdAt, updatedAt := row.updatedAt }

/-- SupabaseDB.getAllCanvases: the user's canvases with deleted_at null,
ordered by updated_at descending, each joined with its nodes. -/
def getAllCanvases (r : RemoteStore) (userId : String) : List CloudCanvas :=
  ((r.canvases.filter fun c => c.userId = userId && c.deletedAt = none).mergeSort
      fun a b => decide (b.updatedAt ≤ a.updatedAt)).map fun row =>
    { id := row.id, name := row.name, nodes := getCanvasNodes r row.id,
      createdAt := row.createdAt, updatedAt := row.updatedAt }

/-- SupabaseDB.createCanvas with a caller-assigned id: a plain insert — the
created_at/updated_at defaults are NOW() and deleted_at starts null; a
conflicting id makes the insert throw (modelled as the error case). -/
def createCanvas (r : RemoteStore) (userId name canvasId : String) (now : ℤ) :
    Except Unit RemoteStore :=
  if r.canvases.any fun c => c.id = canvasId then
    Except.error ()
  else
    Except.ok
      { r with
        canvases := r.canvases ++
          [{ id := canvasId, userId := userId, name := name, createdAt := now,
             updatedAt := now, deletedAt := none }] }

/-- SupabaseDB.updateCanvas: set the name; the update trigger stamps
updated_at with NOW(). A missing id updates no row and is not an error. -/
def updateCanvas (r : RemoteStore) (canvasId name : String) (now : ℤ) : RemoteStore :=
  { r with
    canvases := r.canvases.map fun c =>
      if c.id = canvasId then { c with name := name, updatedAt := now } else c }

/-- The InsertNode payload bulkUpsertNodes builds from one local node. -/
def canvasNodeToInsertRow (userId canvasId : String) (node : CanvasNode) : RemoteNodeRow :=
  { id := node.id, canvasId := canvasId, userId := userId, type := node.type,
    content := node.content, position := node.position, size := node.size,
    connections := node.connections, color := node.color,
    style := node.style.getD emptyNodeStyle, aiMetadata := node.aiMetadata,
    parentId := node.parentId, childrenIds := node.childrenIds.getD [],
    mindMapMetadata := node.mindMapMetadata, createdAt := node.createdAt,
    updatedAt := node.updatedAt }

/-- The updated_at trigger of the nodes table. -/
def stampNodeRow (now : ℤ) (row : RemoteNodeRow) : RemoteNodeRow :=
  { row with updatedAt := now }

/-- SupabaseDB.bulkUpsertNodes: upsert every payload row keyed by id; a
conflicting row is replaced wholesale and the trigger refreshes its
updated_at, a fresh row keeps the payload timestamps. -/
def bulkUpsertNodes (r : RemoteStore) (userId canvasId : String) (nodes : List CanvasNode)
    (now : ℤ) : RemoteStore :=
  { r with
    nodes := (nodes.map (canvasNodeToInsertRow userId canvasId)).foldl
      (upsertByKey RemoteNodeRow.id (stampNodeRow now)) r.nodes }

/-- The InsertChatSession payload saveChatSession builds. -/
def chatSessionToInsertRow (userId canvasId : String) (session : ChatSession) :
    RemoteChatSessionRow :=
  { id := session.id, canvasId := canvasId, userId := userId, name := session.name,
    messages := session.messages, isOpen := session.isOpen, position := session.position,
    size := session.size, startTimestamp := some session.startTimestamp,
    initialNodeSnapshot := session.initialNodeSnapshot, references := session.references,
    createdAt := session.createdAt, updatedAt := session.updatedAt }

/-- The updated_at trigger of the chat_sessions table. -/
def stampSessionRow (now : ℤ) (row : RemoteChatSessionRow) : RemoteChatSessionRow :=
  { row with updatedAt := now }

/-- SupabaseDB.saveChatSession: upsert one session row keyed by id. -/
def saveChatSession (r : RemoteStore) (userId canvasId : String) (session : ChatSession)
    (now : ℤ) : RemoteStore :=
  { r with
    chatSessions := upsertByKey RemoteChatSessionRow.id (stampSessionRow now) r.chatSessions
      (chatSessionToInsertRow userId canvasId session) }

/-- SupabaseDB.getChatSessions: the sessions of one canvas ordered by
created_at ascending, converted back (start_timestamp ?? Date.now()). -/
def getChatSessions (r : RemoteStore) (canvasId : String) (now : ℤ) : List ChatSession :=
  ((r.chatSessions.filter fun cs => cs.canvasId = canvasId).mergeSort
      fun a b => decide (a.createdAt ≤ b.createdAt)).map fun row =>
    { id := row.id, canvasId := row.canvasId, name := row.name, messages := row.messages,
      isOpen := row.isOpen, position := row.position, size := row.size,
      startTimestamp := row.startTimestamp.getD now,
      initialNodeSnapshot := row.initialNodeSnapshot, references := row.references,
      createdAt := row.createdAt, updatedAt := row.updatedAt }

end Supa

/-! ## Synchronization engine (class SyncManager in src/lib/sync-manager.ts)

A SyncState carries the engine's userId, both stores, the persisted offline
queue (localStorage key offline_sync_queue) and the navigator.onLine flag;
statuses broadcast through the status callback are logged in order. Each
operation is written as a core computing its store effects plus a retry flag
(the single catch of syncCanvasToCloud appends exactly one queue entry), and
a wrapper folding those effects into the state — the source's try/catch
structure maps onto the flag. -/

/-- Sync status broadcast to the observer callback. -/
inductive SyncStatus where
  | idle
  | syncing
  | success
  | error
deriving DecidableEq, Repr

/-- One persisted offline-queue entry ({ type, canvasId }). -/
structure QueueOp where
  type : String
  canvasId : String
deriving DecidableEq, Repr

/-- The world as the sync engine sees it. -/
structure SyncState where
  userId : Option String
  localStore : LocalStore
  remote : RemoteStore
  queue : List QueueOp
  online : Bool
  statusLog : List SyncStatus
deriving DecidableEq, Repr

/-- Failure schedule for remote calls. -/
abbrev Sched := List Bool

/-- Consume the next failure bit (an exhausted schedule means success). -/
def schedNext : Sched → Bool × Sched
  | [] => (false, [])
  | b :: rest => (b, rest)

namespace Sync

/-- The for-loop pushing every local chat session of the canvas through
SupabaseDB.saveChatSession; the first throwing call aborts the loop and the
boolean reports that an exception escaped. -/
def pushChatSessions (userId canvasId : String) (now : ℤ) :
    List ChatSession → RemoteStore → Sched → Bool × RemoteStore × Sched
  | [], r, sched => (false, r, sched)
  | session :: rest, r, sched =>
    let (fail, sched1) := schedNext sched
    if fail then (true, r, sched1)
    else
      pushChatSessions userId canvasId now rest
        (Supa.saveChatSession r userId canvasId session now) sched1

/-- Steps 5 and 6 of syncCanvasToCloud: the unconditional bulk node upsert
(skipped when the canvas has no nodes) followed by the chat-session pushes;
the boolean reports an escaped exception, with every write already performed
kept. -/
def pushNodesAndSessions (userId canvasId : String) (now : ℤ) (localNodes : List CanvasNode)
    (sessions : List ChatSession) (r : RemoteStore) (sched : Sched) :
    RemoteStore × Bool × Sched :=
  if localNodes.isEmpty then
    let (failed, r2, sched1) := pushChatSessions userId canvasId now sessions r sched
    (r2, failed, sched1)
  else
    let (failBulk, sched1) := schedNext sched
    if failBulk then (r, true, sched1)
    else
      let r1 := Supa.bulkUpsertNodes r userId canvasId localNodes now
      let (failed, r2, sched2) := pushChatSessions userId canvasId now sessions r1 sched1
      (r2, failed, sched2)

/-- SyncManager.syncCanvasToCloud without its state plumbing: the remote
effects plus the retry flag raised by the catch block. A missing user id or a
locally absent canvas returns before the try block (no-op, no retry entry).
The local chat sessions are read here once — the source reads them between
the node and session pushes, which is observationally identical because local
reads are pure. A failed SupabaseDB.getCanvas request is mapped to null by
that client (it returns null on error), so the engine then attempts
createCanvas, whose id conflict throws into the catch. -/
def syncCanvasToCloudCore (now : ℤ) (canvasId : String) (userId? : Option String)
    (ls : LocalStore) (r : RemoteStore) (sched : Sched) : RemoteStore × Bool × Sched :=
  match userId? with
  | none => (r, false, sched)
  | some userId =>
    match Db.getCanvas ls canvasId with
    | none => (r, false, sched)
    | some localCanvas =>
      let localNodes := Db.getCanvasNodes ls canvasId
      let sessions := Db.getChatSessions ls canvasId
      let (failGet, sched1) := schedNext sched
      let cloudCanvas := if failGet then none else Supa.getCanvas r canvasId
      match cloudCanvas with
      | none =>
        let (failCreate, sched2) := schedNext sched1
        let created :=
          if failCreate then Except.error ()
          else Supa.createCanvas r userId localCanvas.name canvasId now
        match created with
        | Except.error _ => (r, true, sched2)
        | Except.ok r1 => pushNodesAndSessions userId canvasId now localNodes sessions r1 sched2
      | some cloud =>
        if localCanvas.updatedAt > cloud.updatedAt then
          let (failUpd, sched2) := schedNext sched1
          if failUpd then (r, true, sched2)
          else
            pushNodesAndSessions userId canvasId now localNodes sessions
              (Supa.updateCanvas r canvasId localCanvas.name now) sched2
        else
          pushNodesAndSessions userId canvasId now localNodes sessions r sched1

/-- SyncManager.syncCanvasToCloud: apply the core's remote effects and, when
the catch fired, append the single { sync_canvas, canvasId } retry entry. -/
def syncCanvasToCloud (now : ℤ) (canvasId : String) (s : SyncState) (sched : Sched) :
    SyncState × Sched :=
  let (r, enqueueRetry, sched1) := syncCanvasToCloudCore now canvasId s.userId s.localStore
    s.remote sched
  ({ s with
      remote := r,
      queue :=
        if enqueueRetry then s.queue ++ [{ type := "sync_canvas", canvasId := canvasId }]
        else s.queue },
   sched1)

/-- SyncManager.saveCloudCanvasToLocal: create or overwrite the local canvas
row (an existing row is updated unconditionally — name and node references,
with updatedAt stamped by Db.updateCanvas), then merge each cloud node: a
locally absent node is added verbatim, an existing one is overwritten only
when the cloud copy's updatedAt is strictly greater. -/
def saveCloudCanvasToLocal (now : ℤ) (cloudCanvas : CloudCanvas) (ls : LocalStore) :
    LocalStore :=
  let ls1 :=
    match Db.getCanvas ls cloudCanvas.id with
    | none =>
        Db.addCanvas ls
          { id := cloudCanvas.id, name := cloudCanvas.name,
            nodes := cloudCanvas.nodes.map CanvasNode.id,
            createdAt := cloudCanvas.createdAt, updatedAt := cloudCanvas.updatedAt }
    | some _ =>
        Db.updateCanvas ls cloudCanvas.id (some cloudCanvas.name)
          (some (cloudCanvas.nodes.map CanvasNode.id)) now
  cloudCanvas.nodes.foldl
    (fun acc node =>
      match Db.getNode acc node.id with
      | none => Db.addNode acc node
      | some localNode =>
          if node.updatedAt > localNode.updatedAt then Db.updateNodeFull acc node.id node now
          else acc)
    ls1

/-- SyncManager.syncCanvasFromCloud without its state plumbing: local-store
effects of the pull. A missing user id or a remotely absent canvas (also the
answer a failed remote read produces) is a no-op; a throwing
SupabaseDB.getChatSessions lands in the catch with the canvas/node merge
already applied; each pulled session overwrites the matching local session
unconditionally via Db.updateChatSessionFull. -/
def syncCanvasFromCloudCore (now : ℤ) (canvasId : String) (userId? : Option String)
    (ls : LocalStore) (r : RemoteStore) (sched : Sched) : LocalStore × Sched :=
  match userId? with
  | none => (ls, sched)
  | some _ =>
    let (failGet, sched1) := schedNext sched
    let cloudCanvas := if failGet then none else Supa.getCanvas r canvasId
    match cloudCanvas with
    | none => (ls, sched1)
    | some cloud =>
      let ls1 := saveCloudCanvasToLocal now cloud ls
      let (failSess, sched2) := schedNext sched1
      if failSess then (ls1, sched2)
      else
        let sessions := Supa.getChatSessions r canvasId now
        (sessions.foldl (fun acc session => Db.updateChatSessionFull acc session.id session now)
          ls1, sched2)

/-- SyncManager.syncCanvasFromCloud. -/
def syncCanvasFromCloud (now : ℤ) (canvasId : String) (s : SyncState) (sched : Sched) :
    SyncState × Sched :=
  let (ls, sched1) := syncCanvasFromCloudCore now canvasId s.userId s.localStore s.remote sched
  ({ s with localStore := ls }, sched1)

/-- SyncManager.updateStatus: broadcast a status to the registered callback
(recorded in order). -/
def updateStatus (s : SyncState) (st : SyncStatus) : SyncState :=
  { s with statusLog := s.statusLog ++ [st] }

/-- Step 2 of fullSync: push every local canvas in turn. -/
def pushAllCanvases (now : ℤ) : List LocalCanvas → SyncState → Sched → SyncState × Sched
  | [], s, sched => (s, sched)
  | canvas :: rest, s, sched =>
    let (s1, sched1) := syncCanvasToCloud now canvas.id s sched
    pushAllCanvases now rest s1 sched1

/-- Step 4 of fullSync: write each cloud canvas into the local store when it
is absent locally, or when the cloud copy's updatedAt is strictly greater. -/
def mergeCloudCanvases (now : ℤ) : List CloudCanvas → LocalStore → LocalStore
  | [], ls => ls
  | cloud :: rest, ls =>
    let ls1 :=
      match Db.getCanvas ls cloud.id with
      | none => saveCloudCanvasToLocal now cloud ls
      | some localCanvas =>
        if cloud.updatedAt > localCanvas.updatedAt then saveCloudCanvasToLocal now cloud ls
        else ls
    mergeCloudCanvases now rest ls1

/-- SyncManager.fullSync. The guard throws before the try block when no user
id is set — the promise rejects with that error and neither store has been
touched. Inside the try, push all local canvases, then pull and merge the
user's cloud canvases; any exception there (modelled on the
SupabaseDB.getAllCanvases request) is caught: status becomes error and the
promise still resolves. -/
def fullSync (now : ℤ) (s : SyncState) (sched : Sched) :
    SyncState × Sched × Except String Unit :=
  match s.userId with
  | none => (s, sched, Except.error "User ID not set")
  | some userId =>
    let s0 := updateStatus s SyncStatus.syncing
    let pushed := pushAllCanvases now (Db.getAllCanvases s0.localStore) s0 sched
    let s1 := pushed.1
    let sched1 := pushed.2
    let failGetAll := (schedNext sched1).1
    let sched2 := (schedNext sched1).2
    if failGetAll then (updateStatus s1 SyncStatus.error, sched2, Except.ok ())
    else
      let cloudCanvases := Supa.getAllCanvases s1.remote userId
      let s2 := { s1 with localStore := mergeCloudCanvases now cloudCanvases s1.localStore }
      (updateStatus s2 SyncStatus.success, sched2, Except.ok ())

/-- The replay loop of processOfflineQueue: each sync_canvas entry of the
snapshot is replayed through syncCanvasToCloud in order (other entry kinds
are skipped); the per-entry try/catch of the source never fires because
syncCanvasToCloud catches every failure itself. -/
def replayQueue (now : ℤ) : List QueueOp → SyncState → Sched → SyncState × Sched
  | [], s, sched => (s, sched)
  | op :: rest, s, sched =>
    let (s1, sched1) :=
      if op.type = "sync_canvas" then syncCanvasToCloud now op.canvasId s sched else (s, sched)
    replayQueue now rest s1 sched1

/-- SyncManager.processOfflineQueue: skip when offline or when the parsed
queue snapshot is empty; otherwise replay the snapshot and then remove the
persisted queue key unconditionally — entries re-enqueued by failing replays
vanish with it. -/
def processOfflineQueue (now : ℤ) (s : SyncState) (sched : Sched) : SyncState × Sched :=
  if !s.online then (s, sched)
  else
    let queue := s.queue
    if queue.isEmpty then (s, sched)
    else
      let (s1, sched1) := replayQueue now queue s sched
      ({ s1 with queue := [] }, sched1)

end Sync

/-! ## C1: behaviour before setUserId -/

/-- A state in which no user id has been set. -/
def noUserState : SyncState :=
  { userId := none,
    localStore := { canvases := [], nodes := [], chatSessions := [] },
    remote := { canvases := [], nodes := [], chatSessions := [] },
    queue := [], online := true, statusLog := [] }

/-- C1 counterexample: with no user id set, fullSync throws "User ID not set"
before its try block — the returned promise rejects instead of resolving
normally (the claim asserts a silent no-op for all three methods). -/
theorem fullSync_without_user_rejects :
    Sync.fullSync 0 noUserState [] = (noUserState, [], Except.error "User ID not set") ∧
    (Sync.fullSync 0 noUserState []).2.2 ≠ Except.ok () := by
  constructor
  · rfl
  · intro h
    simp [Sync.fullSync, noUserState] at h

/-- C1 amended: before setUserId, syncCanvasToCloud and syncCanvasFromCloud
resolve normally as silent no-ops touching neither store nor the queue, while
fullSync throws "User ID not set" (a rejected promise) — it too leaves both
stores, the queue and the status callback untouched. -/
theorem sync_before_setUserId (now : ℤ) (canvasId : String) (s : SyncState) (sched : Sched)
    (h : s.userId = none) :
    Sync.syncCanvasToCloud now canvasId s sched = (s, sched) ∧
    Sync.syncCanvasFromCloud now canvasId s sched = (s, sched) ∧
    Sync.fullSync now s sched = (s, sched, Except.error "User ID not set") := by
  cases s with
  | mk u ls r q o log =>
    cases h
    refine ⟨?_, ?_, ?_⟩
    · simp [Sync.syncCanvasToCloud, Sync.syncCanvasToCloudCore]
    · simp [Sync.syncCanvasFromCloud, Sync.syncCanvasFromCloudCore]
    · simp [Sync.fullSync]

/-- C1 amended witness at a concrete state. -/
theorem sync_before_setUserId_witness :
    Sync.syncCanvasToCloud 0 "c1" noUserState [] = (noUserState, []) ∧
    Sync.syncCanvasFromCloud 0 "c1" noUserState [] = (noUserState, []) ∧
    Sync.fullSync 0 noUserState [] = (noUserState, [], Except.error "User ID not set") :=
  sync_before_setUserId 0 "c1" noUserState [] rfl

/-! ## C7: offline-queue replay -/

/-- C7: whenever the device is online, processOfflineQueue equals replaying
the queue snapshot — syncCanvasToCloud once per sync_canvas entry, in queue
order — followed by unconditionally emptying the persisted queue, whatever
the failure schedule did to the replays (including entries they re-enqueued);
in particular the resulting queue is always empty. -/
theorem processOfflineQueue_replays_then_clears (now : ℤ) (s : SyncState) (sched : Sched)
    (h : s.online = true) :
    Sync.processOfflineQueue now s sched =
      ({ (Sync.replayQueue now s.queue s sched).1 with queue := [] },
        (Sync.replayQueue now s.queue s sched).2) ∧
    (Sync.processOfflineQueue now s sched).1.queue = [] := by
  have hmain : Sync.processOfflineQueue now s sched =
      ({ (Sync.replayQueue now s.queue s sched).1 with queue := [] },
        (Sync.replayQueue now s.queue s sched).2) := by
    unfold Sync.processOfflineQueue
    rw [h]
    by_cases hq : s.queue.isEmpty
    · have hqe : s.queue = [] := by
        cases hs : s.queue with
        | nil => rfl
        | cons a t => rw [hs] at hq; simp at hq
      rw [hqe]
      simp only [Sync.replayQueue, List.isEmpty_nil, Bool.not_true, Bool.false_eq_true,
        if_false, if_true]
      cases s with
      | mk userId localStore remote queue online statusLog =>
        simp only [SyncState.mk.injEq] at hqe ⊢
        simp [hqe]
    · simp [hq]
  exact ⟨hmain, by rw [hmain]⟩

/-- A concrete online state with one queued sync_canvas entry. -/
def onlineQueuedState : SyncState :=
  { userId := some "u",
    localStore := { canvases := [], nodes := [], chatSessions := [] },
    remote := { canvases := [], nodes := [], chatSessions := [] },
    queue := [{ type := "sync_canvas", canvasId := "c1" }], online := true, statusLog := [] }

/-- C7 witness at a concrete online state. -/
theorem processOfflineQueue_replays_then_clears_witness :
    Sync.processOfflineQueue 0 onlineQueuedState [] =
      ({ (Sync.replayQueue 0 onlineQueuedState.queue onlineQueuedState []).1 with queue := [] },
        (Sync.replayQueue 0 onlineQueuedState.queue onlineQueuedState []).2) ∧
    (Sync.processOfflineQueue 0 onlineQueuedState []).1.queue = [] :=
  processOfflineQueue_replays_then_clears 0 onlineQueuedState [] rfl

/-! ## C4: the pull-newer-remote scenario of fullSync -/

/-- Scenario state: local canvas c1 (updatedAt 100), remote canvas c1 named
"Renamed" (updatedAt 200), no nodes, no chat sessions, user set. -/
def pullNewerScenarioState : SyncState :=
  { userId := some "u",
    localStore :=
      { canvases := [{ id := "c1", name := "Notes", nodes := [], createdAt := 0,
                       updatedAt := 100 }],
        nodes := [], chatSessions := [] },
    remote :=
      { canvases := [{ id := "c1", userId := "u", name := "Renamed", createdAt := 0,
                       updatedAt := 200, deletedAt := none }],
        nodes := [], chatSessions := [] },
    queue := [], online := true, statusLog := [] }

/-- C4 amended: after fullSync on the scenario the local canvas is named
"Renamed", but its updatedAt equals the clock value of the sync's local write
(Db.updateCanvas stamps Date.now()), not the remote timestamp 200. -/
theorem fullSync_pull_newer_remote (now : ℤ) :
    ((Sync.fullSync now pullNewerScenarioState []).1.localStore.canvases.map
        LocalCanvas.name = ["Renamed"]) ∧
    ((Sync.fullSync now pullNewerScenarioState []).1.localStore.canvases.map
        LocalCanvas.updatedAt = [now]) := by
  constructor <;>
    simp [Sync.fullSync, Sync.updateStatus, Sync.pushAllCanvases, Sync.syncCanvasToCloud,
      Sync.syncCanvasToCloudCore, Sync.mergeCloudCanvases, Sync.saveCloudCanvasToLocal,
      Sync.pushNodesAndSessions, Sync.pushChatSessions, schedNext,
      Db.getAllCanvases, Db.getCanvas, Db.getCanvasNodes, Db.getChatSessions,
      Db.updateCanvas, Db.addCanvas, Db.getNode,
      Supa.getCanvas, Supa.getCanvasRow, Supa.getCanvasNodes, Supa.getAllCanvases,
      Supa.createCanvas, Supa.updateCanvas, Supa.getChatSessions,
      pullNewerScenarioState, List.mergeSort_singleton, List.mergeSort_nil, List.find?]

/-- C4 counterexample: at clock value 1000 the scenario ends with local
updatedAt 1000, not the remote timestamp 200 the claim asserts (the name is
"Renamed" as claimed). -/
theorem fullSync_pull_newer_remote_updatedAt_not_adopted :
    ((Sync.fullSync 1000 pullNewerScenarioState []).1.localStore.canvases.map
        LocalCanvas.updatedAt = [1000]) ∧
    ((Sync.fullSync 1000 pullNewerScenarioState []).1.localStore.canvases.map
        LocalCanvas.updatedAt ≠ [200]) ∧
    ((Sync.fullSync 1000 pullNewerScenarioState []).1.localStore.canvases.map
        LocalCanvas.name = ["Renamed"]) := by
  refine ⟨?_, ?_, ?_⟩ <;>
    simp [Sync.fullSync, Sync.updateStatus, Sync.pushAllCanvases, Sync.syncCanvasToCloud,
      Sync.syncCanvasToCloudCore, Sync.mergeCloudCanvases, Sync.saveCloudCanvasToLocal,
      Sync.pushNodesAndSessions, Sync.pushChatSessions, schedNext,
      Db.getAllCanvases, Db.getCanvas, Db.getCanvasNodes, Db.getChatSessions,
      Db.updateCanvas, Db.addCanvas, Db.getNode,
      Supa.getCanvas, Supa.getCanvasRow, Supa.getCanvasNodes, Supa.getAllCanvases,
      Supa.createCanvas, Supa.updateCanvas, Supa.getChatSessions,
      pullNewerScenarioState, List.mergeSort_singleton, List.mergeSort_nil, List.find?]

/-! ## C2: what the pull merge actually compares -/

/-- Pull scenario: the local canvas (updatedAt 300) is strictly newer than the
remote copy (updatedAt 100). -/
def pullOlderScenarioState : SyncState :=
  { userId := some "u",
    localStore :=
      { canvases := [{ id := "c1", name := "Local", nodes := [], createdAt := 0,
                       updatedAt := 300 }],
        nodes := [], chatSessions := [] },
    remote :=
      { canvases := [{ id := "c1", userId := "u", name := "Remote", createdAt := 0,
                       updatedAt := 100, deletedAt := none }],
        nodes := [], chatSessions := [] },
    queue := [], online := true, statusLog := [] }

/-- C2 counterexample: the remote canvas row's updatedAt (100) is not strictly
greater than the local one's (300), yet syncCanvasFromCloud overwrites the
local canvas row anyway — its name becomes "Remote" and its updatedAt the
write clock — contradicting the claim that the strictly-newer comparison
governs the canvas row. -/
theorem syncCanvasFromCloud_overwrites_newer_local_canvas :
    ((Sync.syncCanvasFromCloud 1000 "c1" pullOlderScenarioState []).1.localStore.canvases =
      [{ id := "c1", name := "Remote", nodes := [], createdAt := 0, updatedAt := 1000 }]) ∧
    pullOlderScenarioState.localStore.canvases =
      [{ id := "c1", name := "Local", nodes := [], createdAt := 0, updatedAt := 300 }] := by
  constructor
  · simp [Sync.syncCanvasFromCloud, Sync.syncCanvasFromCloudCore, Sync.saveCloudCanvasToLocal,
      schedNext, Db.getCanvas, Db.updateCanvas, Db.addCanvas, Db.getNode,
      Db.updateChatSessionFull,
      Supa.getCanvas, Supa.getCanvasRow, Supa.getCanvasNodes, Supa.getChatSessions,
      pullOlderScenarioState, List.mergeSort_singleton, List.mergeSort_nil, List.find?]
  · rfl

/-! ## Keyed-table lookup lemmas shared by the merge and upsert proofs -/

theorem find?_key_replace_other {α : Type} (key : α → String) {l : List α} {i j : String}
    (repl : α) (hrepl : key repl = i) (hne : i ≠ j) :
    (l.map fun x => if key x = i then repl else x).find? (fun x => decide (key x = j)) =
      l.find? fun x => decide (key x = j) := by
  induction l with
  | nil => rfl
  | cons a t ih =>
    simp only [List.map_cons]
    by_cases ha : key a = i
    · rw [if_pos ha]
      have h1 : decide (key repl = j) = false := by simp [hrepl, hne]
      have h2 : decide (key a = j) = false := by simp [ha, hne]
      simp only [List.find?_cons, h1, h2]
      exact ih
    · rw [if_neg ha]
      simp only [List.find?_cons]
      cases haj : decide (key a = j) with
      | true => simp only [haj]
      | false =>
        simp only [haj]
        exact ih

theorem find?_key_replace_self {α : Type} (key : α → String) {l : List α} {i : String}
    (repl : α) (hrepl : key repl = i)
    (hsome : (l.find? fun x => decide (key x = i)).isSome = true) :
    (l.map fun x => if key x = i then repl else x).find? (fun x => decide (key x = i)) =
      some repl := by
  induction l with
  | nil => simp [List.find?] at hsome
  | cons a t ih =>
    simp only [List.map_cons]
    by_cases ha : key a = i
    · rw [if_pos ha]
      have h1 : decide (key repl = i) = true := by simp [hrepl]
      simp only [List.find?_cons, h1]
    · rw [if_neg ha]
      have h2 : decide (key a = i) = false := by simp [ha]
      simp only [List.find?_cons, h2]
      simp only [List.find?_cons, h2] at hsome
      exact ih hsome

theorem find?_key_append_one {α : Type} (key : α → String) (l : List α) (x : α) (j : String) :
    (l ++ [x]).find? (fun y => decide (key y = j)) =
      match l.find? (fun y => decide (key y = j)) with
      | some v => some v
      | none => if key x = j then some x else none := by
  induction l with
  | nil =>
    simp only [List.nil_append, List.find?_cons, List.find?_nil]
    by_cases hx : key x = j
    · simp [hx]
    · simp [hx]
  | cons a t ih =>
    rw [List.cons_append]
    simp only [List.find?_cons]
    cases haj : decide (key a = j) with
    | true => simp only [haj]
    | false =>
      simp only [haj]
      exact ih

/-! ## Frame and lookup lemmas for the pull merge -/

/-- The per-node merge step of saveCloudCanvasToLocal, named for the proofs. -/
def mergeNodeStep (now : ℤ) (acc : LocalStore) (node : CanvasNode) : LocalStore :=
  match Db.getNode acc node.id with
  | none => Db.addNode acc node
  | some localNode =>
      if node.updatedAt > localNode.updatedAt then Db.updateNodeFull acc node.id node now
      else acc

/-- The per-session merge step of syncCanvasFromCloud, named for the proofs. -/
def mergeSessionStep (now : ℤ) (acc : LocalStore) (session : ChatSession) : LocalStore :=
  Db.updateChatSessionFull acc session.id session now

theorem saveCloudCanvasToLocal_eq_fold (now : ℤ) (cloudCanvas : CloudCanvas) (ls : LocalStore) :
    Sync.saveCloudCanvasToLocal now cloudCanvas ls =
      cloudCanvas.nodes.foldl (mergeNodeStep now)
        (match Db.getCanvas ls cloudCanvas.id with
         | none =>
             Db.addCanvas ls
               { id := cloudCanvas.id, name := cloudCanvas.name,
                 nodes := cloudCanvas.nodes.map CanvasNode.id,
                 createdAt := cloudCanvas.createdAt, updatedAt := cloudCanvas.updatedAt }
         | some _ =>
             Db.updateCanvas ls cloudCanvas.id (some cloudCanvas.name)
               (some (cloudCanvas.nodes.map CanvasNode.id)) now) := rfl

theorem mergeNodeStep_frame (now : ℤ) (acc : LocalStore) (node : CanvasNode) :
    (mergeNodeStep now acc node).canvases = acc.canvases ∧
    (mergeNodeStep now acc node).chatSessions = acc.chatSessions := by
  unfold mergeNodeStep
  split
  · exact ⟨rfl, rfl⟩
  · split
    · exact ⟨rfl, rfl⟩
    · exact ⟨rfl, rfl⟩

theorem mergeNodeFold_frame (now : ℤ) (L : List CanvasNode) (acc : LocalStore) :
    (L.foldl (mergeNodeStep now) acc).canvases = acc.canvases ∧
    (L.foldl (mergeNodeStep now) acc).chatSessions = acc.chatSessions := by
  induction L generalizing acc with
  | nil => exact ⟨rfl, rfl⟩
  | cons n t ih =>
    simp only [List.foldl_cons]
    exact ⟨((ih _).1).trans (mergeNodeStep_frame now acc n).1,
      ((ih _).2).trans (mergeNodeStep_frame now acc n).2⟩

theorem mergeSessionFold_frame (now : ℤ) (L : List ChatSession) (acc : LocalStore) :
    (L.foldl (mergeSessionStep now) acc).canvases = acc.canvases ∧
    (L.foldl (mergeSessionStep now) acc).nodes = acc.nodes := by
  induction L generalizing acc with
  | nil => exact ⟨rfl, rfl⟩
  | cons sess t ih =>
    simp only [List.foldl_cons]
    exact ⟨(ih _).1, (ih _).2⟩

/-- A node-merge step leaves every node lookup at a different id unchanged. -/
theorem mergeNodeStep_getNode_other (now : ℤ) (acc : LocalStore) (m : CanvasNode) {j : String}
    (hne : m.id ≠ j) :
    Db.getNode (mergeNodeStep now acc m) j = Db.getNode acc j := by
  unfold mergeNodeStep
  cases Db.getNode acc m.id with
  | none =>
    show (acc.nodes ++ [m]).find? (fun n => decide (n.id = j)) =
      acc.nodes.find? fun n => decide (n.id = j)
    rw [find?_key_append_one CanvasNode.id]
    cases hf : acc.nodes.find? fun n => decide (n.id = j) with
    | some v => rfl
    | none => simp [hne]
  | some localNode =>
    by_cases h : m.updatedAt > localNode.updatedAt
    · simp only [if_pos h]
      exact find?_key_replace_other CanvasNode.id _ rfl hne
    · simp only [if_neg h]

theorem mergeNodeFold_getNode_other (now : ℤ) (L : List CanvasNode) (acc : LocalStore)
    {j : String} (hne : ∀ m ∈ L, m.id ≠ j) :
    Db.getNode (L.foldl (mergeNodeStep now) acc) j = Db.getNode acc j := by
  induction L generalizing acc with
  | nil => rfl
  | cons n t ih =>
    simp only [List.foldl_cons]
    rw [ih _ fun m hm => hne m (List.mem_cons_of_mem _ hm)]
    exact mergeNodeStep_getNode_other now acc n (hne n (List.mem_cons_self _ _))

theorem mergeNodeFold_not_newer (now : ℤ) (n ln : CanvasNode) :
    ∀ (L : List CanvasNode) (acc : LocalStore),
      (L.map CanvasNode.id).Nodup → n ∈ L →
      Db.getNode acc n.id = some ln → n.updatedAt ≤ ln.updatedAt →
      Db.getNode (L.foldl (mergeNodeStep now) acc) n.id = some ln := by
  intro L
  induction L with
  | nil =>
    intro acc _ hn
    cases hn
  | cons m t ih =>
    intro acc hnodup hn hlookup hle
    simp only [List.map_cons, List.nodup_cons] at hnodup
    simp only [List.foldl_cons]
    rcases List.mem_cons.mp hn with heq | hmem
    · subst heq
      have hstep : mergeNodeStep now acc n = acc := by
        unfold mergeNodeStep
        rw [hlookup]
        show (if n.updatedAt > ln.updatedAt then Db.updateNodeFull acc n.id n now else acc) = acc
        rw [if_neg (not_lt.mpr hle)]
      rw [hstep]
      have hother : ∀ x ∈ t, x.id ≠ n.id := by
        intro x hx hcontra
        exact hnodup.1 (hcontra ▸ List.mem_map_of_mem _ hx)
      rw [mergeNodeFold_getNode_other now t acc hother]
      exact hlookup
    · have hmne : m.id ≠ n.id := by
        intro hcontra
        exact hnodup.1 (hcontra ▸ List.mem_map_of_mem _ hmem)
      have hlookup1 : Db.getNode (mergeNodeStep now acc m) n.id = some ln := by
        rw [mergeNodeStep_getNode_other now acc m hmne]
        exact hlookup
      exact ih _ hnodup.2 hmem hlookup1 hle

theorem mergeNodeFold_newer (now : ℤ) (n ln : CanvasNode) :
    ∀ (L : List CanvasNode) (acc : LocalStore),
      (L.map CanvasNode.id).Nodup → n ∈ L →
      Db.getNode acc n.id = some ln → ln.updatedAt < n.updatedAt →
      Db.getNode (L.foldl (mergeNodeStep now) acc) n.id =
        some { n with updatedAt := now } := by
  intro L
  induction L with
  | nil =>
    intro acc _ hn
    cases hn
  | cons m t ih =>
    intro acc hnodup hn hlookup hlt
    simp only [List.map_cons, List.nodup_cons] at hnodup
    simp only [List.foldl_cons]
    rcases List.mem_cons.mp hn with heq | hmem
    · subst heq
      have hstep : mergeNodeStep now acc n = Db.updateNodeFull acc n.id n now := by
        unfold mergeNodeStep
        rw [hlookup]
        show (if n.updatedAt > ln.updatedAt then Db.updateNodeFull acc n.id n now else acc) =
          Db.updateNodeFull acc n.id n now
        rw [if_pos hlt]
      rw [hstep]
      have hother : ∀ x ∈ t, x.id ≠ n.id := by
        intro x hx hcontra
        exact hnodup.1 (hcontra ▸ List.mem_map_of_mem _ hx)
      rw [mergeNodeFold_getNode_other now t _ hother]
      show (acc.nodes.map fun x => if x.id = n.id then { n with updatedAt := now } else x).find?
          (fun x => decide (x.id = n.id)) = some { n with updatedAt := now }
      exact find?_key_replace_self CanvasNode.id _ rfl (by rw [show acc.nodes.find?
        (fun x => decide (x.id = n.id)) = some ln from hlookup]; rfl)
    · have hmne : m.id ≠ n.id := by
        intro hcontra
        exact hnodup.1 (hcontra ▸ List.mem_map_of_mem _ hmem)
      have hlookup1 : Db.getNode (mergeNodeStep now acc m) n.id = some ln := by
        rw [mergeNodeStep_getNode_other now acc m hmne]
        exact hlookup
      exact ih _ hnodup.2 hmem hlookup1 hlt

theorem mergeNodeFold_absent (now : ℤ) (n : CanvasNode) :
    ∀ (L : List CanvasNode) (acc : LocalStore),
      (L.map CanvasNode.id).Nodup → n ∈ L →
      Db.getNode acc n.id = none →
      Db.getNode (L.foldl (mergeNodeStep now) acc) n.id = some n := by
  intro L
  induction L with
  | nil =>
    intro acc _ hn
    cases hn
  | cons m t ih =>
    intro acc hnodup hn hlookup
    simp only [List.map_cons, List.nodup_cons] at hnodup
    simp only [List.foldl_cons]
    rcases List.mem_cons.mp hn with heq | hmem
    · subst heq
      have hstep : mergeNodeStep now acc n = Db.addNode acc n := by
        unfold mergeNodeStep
        rw [hlookup]
      rw [hstep]
      have hother : ∀ x ∈ t, x.id ≠ n.id := by
        intro x hx hcontra
        exact hnodup.1 (hcontra ▸ List.mem_map_of_mem _ hx)
      rw [mergeNodeFold_getNode_other now t _ hother]
      show (acc.nodes ++ [n]).find? (fun x => decide (x.id = n.id)) = some n
      rw [find?_key_append_one CanvasNode.id]
      rw [show acc.nodes.find? (fun x => decide (x.id = n.id)) = none from hlookup]
      simp
    · have hmne : m.id ≠ n.id := by
        intro hcontra
        exact hnodup.1 (hcontra ▸ List.mem_map_of_mem _ hmem)
      have hlookup1 : Db.getNode (mergeNodeStep now acc m) n.id = none := by
        rw [mergeNodeStep_getNode_other now acc m hmne]
        exact hlookup
      exact ih _ hnodup.2 hmem hlookup1

theorem mergeSessionStep_find_other (now : ℤ) (acc : LocalStore) (m : ChatSession) {j : String}
    (hne : m.id ≠ j) :
    (mergeSessionStep now acc m).chatSessions.find? (fun c => decide (c.id = j)) =
      acc.chatSessions.find? fun c => decide (c.id = j) :=
  find?_key_replace_other ChatSession.id _ rfl hne

theorem mergeSessionFold_find_other (now : ℤ) (L : List ChatSession) (acc : LocalStore)
    {j : String} (hne : ∀ m ∈ L, m.id ≠ j) :
    (L.foldl (mergeSessionStep now) acc).chatSessions.find? (fun c => decide (c.id = j)) =
      acc.chatSessions.find? fun c => decide (c.id = j) := by
  induction L generalizing acc with
  | nil => rfl
  | cons m t ih =>
    simp only [List.foldl_cons]
    rw [ih _ fun x hx => hne x (List.mem_cons_of_mem _ hx)]
    exact mergeSessionStep_find_other now acc m (hne m (List.mem_cons_self _ _))

theorem mergeSessionFold_overwrites (now : ℤ) (sess : ChatSession) :
    ∀ (L : List ChatSession) (acc : LocalStore),
      (L.map ChatSession.id).Nodup → sess ∈ L →
      (acc.chatSessions.find? fun c => decide (c.id = sess.id)).isSome = true →
      (L.foldl (mergeSessionStep now) acc).chatSessions.find? (fun c => decide (c.id = sess.id)) =
        some { sess with updatedAt := now } := by
  intro L
  induction L with
  | nil =>
    intro acc _ hn
    cases hn
  | cons m t ih =>
    intro acc hnodup hn hsome
    simp only [List.map_cons, List.nodup_cons] at hnodup
    simp only [List.foldl_cons]
    rcases List.mem_cons.mp hn with heq | hmem
    · subst heq
      have hother : ∀ x ∈ t, x.id ≠ sess.id := by
        intro x hx hcontra
        exact hnodup.1 (hcontra ▸ List.mem_map_of_mem _ hx)
      rw [mergeSessionFold_find_other now t _ hother]
      show (acc.chatSessions.map fun c =>
          if c.id = sess.id then { sess with updatedAt := now } else c).find?
          (fun c => decide (c.id = sess.id)) = some { sess with updatedAt := now }
      exact find?_key_replace_self ChatSession.id _ rfl hsome
    · have hmne : m.id ≠ sess.id := by
        intro hcontra
        exact hnodup.1 (hcontra ▸ List.mem_map_of_mem _ hmem)
      have hsome1 : ((mergeSessionStep now acc m).chatSessions.find? fun c =>
          decide (c.id = sess.id)).isSome = true := by
        rw [mergeSessionStep_find_other now acc m hmne]
        exact hsome
      exact ih _ hnodup.2 hmem hsome1

/-- C2 amended: in syncCanvasFromCloud only the node records are governed by
the strictly-newer updatedAt comparison — a remote node not strictly newer
leaves the local node record untouched, a strictly newer one replaces it
(stamped with the local write clock); the canvas row is overwritten
unconditionally (its name becomes the remote name however the timestamps
compare), and every pulled chat session unconditionally overwrites the local
session with the same id. -/
theorem syncCanvasFromCloud_merge_rules (now : ℤ) (canvasId uid : String) (s : SyncState)
    (cloud : CloudCanvas)
    (hu : s.userId = some uid)
    (hc : Supa.getCanvas s.remote canvasId = some cloud)
    (hnodesNodup : (cloud.nodes.map CanvasNode.id).Nodup)
    (hsessNodup : ((Supa.getChatSessions s.remote canvasId now).map ChatSession.id).Nodup) :
    (∀ c ∈ (Sync.syncCanvasFromCloud now canvasId s []).1.localStore.canvases,
        c.id = cloud.id → c.name = cloud.name) ∧
    (∀ n ∈ cloud.nodes, ∀ ln, Db.getNode s.localStore n.id = some ln →
        n.updatedAt ≤ ln.updatedAt →
        Db.getNode (Sync.syncCanvasFromCloud now canvasId s []).1.localStore n.id = some ln) ∧
    (∀ n ∈ cloud.nodes, ∀ ln, Db.getNode s.localStore n.id = some ln →
        ln.updatedAt < n.updatedAt →
        Db.getNode (Sync.syncCanvasFromCloud now canvasId s []).1.localStore n.id =
          some { n with updatedAt := now }) ∧
    (∀ sess ∈ Supa.getChatSessions s.remote canvasId now,
        (s.localStore.chatSessions.find? fun c => decide (c.id = sess.id)).isSome = true →
        ((Sync.syncCanvasFromCloud now canvasId s []).1.localStore.chatSessions.find?
            fun c => decide (c.id = sess.id)) = some { sess with updatedAt := now }) := by
  have hcore : (Sync.syncCanvasFromCloud now canvasId s []).1.localStore =
      (Supa.getChatSessions s.remote canvasId now).foldl (mergeSessionStep now)
        (Sync.saveCloudCanvasToLocal now cloud s.localStore) := by
    simp only [Sync.syncCanvasFromCloud, Sync.syncCanvasFromCloudCore, hu, hc, schedNext,
      Bool.false_eq_true, if_false]
    rfl
  rw [hcore]
  have hbaseFold : Sync.saveCloudCanvasToLocal now cloud s.localStore =
      cloud.nodes.foldl (mergeNodeStep now)
        (match Db.getCanvas s.localStore cloud.id with
         | none =>
             Db.addCanvas s.localStore
               { id := cloud.id, name := cloud.name,
                 nodes := cloud.nodes.map CanvasNode.id,
                 createdAt := cloud.createdAt, updatedAt := cloud.updatedAt }
         | some _ =>
             Db.updateCanvas s.localStore cloud.id (some cloud.name)
               (some (cloud.nodes.map CanvasNode.id)) now) :=
    saveCloudCanvasToLocal_eq_fold now cloud s.localStore
  refine ⟨?_, ?_, ?_, ?_⟩
  · -- canvas row: name overwritten unconditionally
    intro c hcmem hcid
    rw [(mergeSessionFold_frame now _ _).1, hbaseFold, (mergeNodeFold_frame now _ _).1] at hcmem
    cases hcv : Db.getCanvas s.localStore cloud.id with
    | none =>
      rw [hcv] at hcmem
      rcases List.mem_append.mp hcmem with hold | hnew
      · exfalso
        have hnone := List.find?_eq_none.mp hcv c hold
        simp only [decide_eq_true_eq] at hnone
        exact hnone hcid
      · rcases List.mem_singleton.mp hnew with rfl
        rfl
    | some lc =>
      rw [hcv] at hcmem
      rcases List.mem_map.mp hcmem with ⟨orig, horig, hrepl⟩
      by_cases ho : orig.id = cloud.id
      · rw [if_pos ho] at hrepl
        rw [← hrepl]
        rfl
      · rw [if_neg ho] at hrepl
        exfalso
        exact ho (by rw [hrepl]; exact hcid)
  · -- node not strictly newer: untouched
    intro n hnmem ln hlookup hle
    have hsessNodes : ∀ j, Db.getNode ((Supa.getChatSessions s.remote canvasId now).foldl
        (mergeSessionStep now) (Sync.saveCloudCanvasToLocal now cloud s.localStore)) j =
        Db.getNode (Sync.saveCloudCanvasToLocal now cloud s.localStore) j := by
      intro j
      show (List.foldl (mergeSessionStep now) _ _).nodes.find? _ = _
      rw [(mergeSessionFold_frame now _ _).2]
      rfl
    rw [hsessNodes, hbaseFold]
    have hlook2 : Db.getNode (match Db.getCanvas s.localStore cloud.id with
         | none =>
             Db.addCanvas s.localStore
               { id := cloud.id, name := cloud.name,
                 nodes := cloud.nodes.map CanvasNode.id,
                 createdAt := cloud.createdAt, updatedAt := cloud.updatedAt }
         | some _ =>
             Db.updateCanvas s.localStore cloud.id (some cloud.name)
               (some (cloud.nodes.map CanvasNode.id)) now) n.id = some ln := by
      cases hcv : Db.getCanvas s.localStore cloud.id with
      | none => exact hlookup
      | some lc => exact hlookup
    exact mergeNodeFold_not_newer now n ln cloud.nodes _ hnodesNodup hnmem hlook2 hle
  · -- node strictly newer: replaced, stamped by the write clock
    intro n hnmem ln hlookup hlt
    have hsessNodes : ∀ j, Db.getNode ((Supa.getChatSessions s.remote canvasId now).foldl
        (mergeSessionStep now) (Sync.saveCloudCanvasToLocal now cloud s.localStore)) j =
        Db.getNode (Sync.saveCloudCanvasToLocal now cloud s.localStore) j := by
      intro j
      show (List.foldl (mergeSessionStep now) _ _).nodes.find? _ = _
      rw [(mergeSessionFold_frame now _ _).2]
      rfl
    rw [hsessNodes, hbaseFold]
    have hlook2 : Db.getNode (match Db.getCanvas s.localStore cloud.id with
         | none =>
             Db.addCanvas s.localStore
               { id := cloud.id, name := cloud.name,
                 nodes := cloud.nodes.map CanvasNode.id,
                 createdAt := cloud.createdAt, updatedAt := cloud.updatedAt }
         | some _ =>
             Db.updateCanvas s.localStore cloud.id (some cloud.name)
               (some (cloud.nodes.map CanvasNode.id)) now) n.id = some ln := by
      cases hcv : Db.getCanvas s.localStore cloud.id with
      | none => exact hlookup
      | some lc => exact hlookup
    exact mergeNodeFold_newer now n ln cloud.nodes _ hnodesNodup hnmem hlook2 hlt
  · -- chat sessions: unconditional overwrite of existing local sessions
    intro sess hsmem hsome
    have hsome2 : ((Sync.saveCloudCanvasToLocal now cloud s.localStore).chatSessions.find?
        fun c => decide (c.id = sess.id)).isSome = true := by
      rw [hbaseFold, (mergeNodeFold_frame now _ _).2]
      cases hcv : Db.getCanvas s.localStore cloud.id with
      | none => exact hsome
      | some lc => exact hsome
    exact mergeSessionFold_overwrites now sess _ _ hsessNodup hsmem hsome2

/-- The cloud view of the pull scenario canvas. -/
def pullOlderScenarioCloud : CloudCanvas :=
  { id := "c1", name := "Remote", nodes := [], createdAt := 0, updatedAt := 100 }

/-- C2 amended witness at the concrete pull scenario. -/
theorem syncCanvasFromCloud_merge_rules_witness :
    (∀ c ∈ (Sync.syncCanvasFromCloud 1000 "c1" pullOlderScenarioState []).1.localStore.canvases,
        c.id = pullOlderScenarioCloud.id → c.name = pullOlderScenarioCloud.name) ∧
    (∀ n ∈ pullOlderScenarioCloud.nodes, ∀ ln,
        Db.getNode pullOlderScenarioState.localStore n.id = some ln →
        n.updatedAt ≤ ln.updatedAt →
        Db.getNode (Sync.syncCanvasFromCloud 1000 "c1" pullOlderScenarioState []).1.localStore
          n.id = some ln) ∧
    (∀ n ∈ pullOlderScenarioCloud.nodes, ∀ ln,
        Db.getNode pullOlderScenarioState.localStore n.id = some ln →
        ln.updatedAt < n.updatedAt →
        Db.getNode (Sync.syncCanvasFromCloud 1000 "c1" pullOlderScenarioState []).1.localStore
          n.id = some { n with updatedAt := 1000 }) ∧
    (∀ sess ∈ Supa.getChatSessions pullOlderScenarioState.remote "c1" 1000,
        (pullOlderScenarioState.localStore.chatSessions.find? fun c =>
          decide (c.id = sess.id)).isSome = true →
        ((Sync.syncCanvasFromCloud 1000 "c1" pullOlderScenarioState []).1.localStore.chatSessions.find?
            fun c => decide (c.id = sess.id)) = some { sess with updatedAt := 1000 }) :=
  syncCanvasFromCloud_merge_rules 1000 "c1" "u" pullOlderScenarioState pullOlderScenarioCloud
    rfl
    (by simp [Supa.getCanvas, Supa.getCanvasRow, Supa.getCanvasNodes, pullOlderScenarioState,
      pullOlderScenarioCloud, List.find?, List.mergeSort_nil])
    (by simp [pullOlderScenarioCloud])
    (by simp [Supa.getChatSessions, pullOlderScenarioState, List.mergeSort_nil])

/-! ## Upsert lemmas for the push path -/

theorem upsertByKey_key_mem {α : Type} (key : α → String) (stamp : α → α)
    (hsk : ∀ x, key (stamp x) = key x) (rows : List α) (row : α) :
    key row ∈ (upsertByKey key stamp rows row).map key := by
  unfold upsertByKey
  by_cases hany : rows.any fun x => key x = key row
  · rw [if_pos hany]
    rcases List.any_eq_true.mp hany with ⟨x, hx, hkx⟩
    simp only [decide_eq_true_eq] at hkx
    have : stamp row ∈ rows.map fun y => if key y = key row then stamp row else y := by
      rcases List.mem_map.mp (List.mem_map_of_mem (fun y => if key y = key row then stamp row else y) hx) with _
      exact List.mem_map.mpr ⟨x, hx, by rw [if_pos hkx]⟩
    have hmem := List.mem_map_of_mem key this
    rw [hsk row] at hmem
    exact hmem
  · rw [if_neg hany]
    simp

theorem upsertByKey_keys_mono {α : Type} (key : α → String) (stamp : α → α)
    (hsk : ∀ x, key (stamp x) = key x) (rows : List α) (row : α) {j : String}
    (hj : j ∈ rows.map key) :
    j ∈ (upsertByKey key stamp rows row).map key := by
  unfold upsertByKey
  by_cases hany : rows.any fun x => key x = key row
  · rw [if_pos hany]
    rcases List.mem_map.mp hj with ⟨x, hx, hkx⟩
    by_cases hxr : key x = key row
    · have hmem := List.mem_map_of_mem key
        (List.mem_map.mpr ⟨x, hx, by rw [if_pos hxr]⟩ :
          stamp row ∈ rows.map fun y => if key y = key row then stamp row else y)
      rw [hsk row] at hmem
      rw [← hkx, hxr]
      exact hmem
    · have hmem := List.mem_map_of_mem key
        (List.mem_map.mpr ⟨x, hx, by rw [if_neg hxr]⟩ :
          x ∈ rows.map fun y => if key y = key row then stamp row else y)
      rw [hkx] at hmem
      exact hmem
  · rw [if_neg hany]
    rw [List.map_append]
    exact List.mem_append_left _ hj

theorem foldl_upsertByKey_keys_mono {α : Type} (key : α → String) (stamp : α → α)
    (hsk : ∀ x, key (stamp x) = key x) (L : List α) {j : String} :
    ∀ (M : List α), j ∈ M.map key → j ∈ (L.foldl (upsertByKey key stamp) M).map key := by
  induction L with
  | nil => exact fun M h => h
  | cons a t ih =>
    intro M hM
    exact ih _ (upsertByKey_keys_mono key stamp hsk M a hM)

theorem foldl_upsertByKey_key_mem {α : Type} (key : α → String) (stamp : α → α)
    (hsk : ∀ x, key (stamp x) = key x) {L : List α} {r : α} (hr : r ∈ L) :
    ∀ (M : List α), key r ∈ (L.foldl (upsertByKey key stamp) M).map key := by
  induction L with
  | nil => cases hr
  | cons a t ih =>
    intro M
    rcases List.mem_cons.mp hr with heq | hmem
    · subst heq
      simp only [List.foldl_cons]
      exact foldl_upsertByKey_keys_mono key stamp hsk t _
        (upsertByKey_key_mem key stamp hsk M r)
    · exact ih hmem _

/-! ## Equations for the failure-free push path -/

/-- The combined remote effect of steps 5 and 6 of a successful
syncCanvasToCloud: the bulk node upsert (skipped when there is no node)
followed by the chat-session upserts. -/
def remotePushEffect (userId canvasId : String) (now : ℤ) (localNodes : List CanvasNode)
    (sessions : List ChatSession) (r : RemoteStore) : RemoteStore :=
  let r1 := if localNodes.isEmpty then r else Supa.bulkUpsertNodes r userId canvasId localNodes now
  sessions.foldl (fun acc sess => Supa.saveChatSession acc userId canvasId sess now) r1

theorem pushChatSessions_noFail (userId canvasId : String) (now : ℤ) :
    ∀ (sessions : List ChatSession) (r : RemoteStore),
      Sync.pushChatSessions userId canvasId now sessions r [] =
        (false, sessions.foldl (fun acc sess => Supa.saveChatSession acc userId canvasId sess now)
          r, []) := by
  intro sessions
  induction sessions with
  | nil => intro r; rfl
  | cons sess rest ih =>
    intro r
    simp only [Sync.pushChatSessions, schedNext, Bool.false_eq_true, if_false, List.foldl_cons]
    exact ih _

theorem pushNodesAndSessions_noFail (userId canvasId : String) (now : ℤ)
    (localNodes : List CanvasNode) (sessions : List ChatSession) (r : RemoteStore) :
    Sync.pushNodesAndSessions userId canvasId now localNodes sessions r [] =
      (remotePushEffect userId canvasId now localNodes sessions r, false, []) := by
  unfold Sync.pushNodesAndSessions remotePushEffect
  by_cases hempty : localNodes.isEmpty
  · rw [if_pos hempty, if_pos hempty, pushChatSessions_noFail]
  · rw [if_neg hempty, if_neg hempty]
    simp only [schedNext, Bool.false_eq_true, if_false]
    rw [pushChatSessions_noFail]

/-- The chat-session fold touches only the chat_sessions table, where it is
the keyed upsert of the mapped payload rows. -/
theorem sessionsFold_tables (userId canvasId : String) (now : ℤ) :
    ∀ (sessions : List ChatSession) (r : RemoteStore),
      sessions.foldl (fun acc sess => Supa.saveChatSession acc userId canvasId sess now) r =
        { canvases := r.canvases, nodes := r.nodes,
          chatSessions := (sessions.map (Supa.chatSessionToInsertRow userId canvasId)).foldl
            (upsertByKey RemoteChatSessionRow.id (Supa.stampSessionRow now)) r.chatSessions } := by
  intro sessions
  induction sessions with
  | nil => intro r; rfl
  | cons sess rest ih =>
    intro r
    simp only [List.foldl_cons, List.map_cons]
    rw [ih]
    rfl

/-- In a table with pairwise distinct keys, any member carrying the looked-up
key is the record find? returned. -/
theorem find?_key_unique {α : Type} (key : α → String) :
    ∀ {l : List α}, (l.map key).Nodup →
      ∀ {i : String} {v : α}, l.find? (fun x => decide (key x = i)) = some v →
      ∀ {w : α}, w ∈ l → key w = i → w = v := by
  intro l
  induction l with
  | nil =>
    intro _ i v hfind
    simp [List.find?] at hfind
  | cons a t ih =>
    intro hnodup i v hfind w hw hkw
    simp only [List.map_cons, List.nodup_cons] at hnodup
    by_cases ha : key a = i
    · rw [List.find?_cons_of_pos _ (by simp [ha])] at hfind
      cases hfind
      rcases List.mem_cons.mp hw with heq | hmem
      · exact heq
      · exfalso
        apply hnodup.1
        rw [ha, ← hkw]
        exact List.mem_map_of_mem key hmem
    · rw [List.find?_cons_of_neg _ (by simp [ha])] at hfind
      rcases List.mem_cons.mp hw with heq | hmem
      · exact absurd (heq ▸ hkw) ha
      · exact ih hnodup.2 hfind hmem hkw

/-- The failure-free remote-exists push path of syncCanvasToCloudCore. -/
theorem syncCanvasToCloudCore_remote_exists (now : ℤ) (canvasId userId : String)
    (ls : LocalStore) (r : RemoteStore) (localCanvas : LocalCanvas) (cloud : CloudCanvas)
    (hl : Db.getCanvas ls canvasId = some localCanvas)
    (hr : Supa.getCanvas r canvasId = some cloud) :
    Sync.syncCanvasToCloudCore now canvasId (some userId) ls r [] =
      (remotePushEffect userId canvasId now (Db.getCanvasNodes ls canvasId)
        (Db.getChatSessions ls canvasId)
        (if localCanvas.updatedAt > cloud.updatedAt then
          Supa.updateCanvas r canvasId localCanvas.name now
         else r),
       false, []) := by
  unfold Sync.syncCanvasToCloudCore
  rw [hl]
  simp only [schedNext, Bool.false_eq_true, if_false]
  rw [hr]
  show (if localCanvas.updatedAt > cloud.updatedAt then
          Sync.pushNodesAndSessions userId canvasId now (Db.getCanvasNodes ls canvasId)
            (Db.getChatSessions ls canvasId) (Supa.updateCanvas r canvasId localCanvas.name now) []
        else
          Sync.pushNodesAndSessions userId canvasId now (Db.getCanvasNodes ls canvasId)
            (Db.getChatSessions ls canvasId) r []) = _
  by_cases hcmp : localCanvas.updatedAt > cloud.updatedAt
  · rw [if_pos hcmp, if_pos hcmp]
    exact pushNodesAndSessions_noFail userId canvasId now _ _ _
  · rw [if_neg hcmp, if_neg hcmp]
    exact pushNodesAndSessions_noFail userId canvasId now _ _ _

/-- Frame: remotePushEffect never touches the canvases table. -/
theorem remotePushEffect_canvases (userId canvasId : String) (now : ℤ)
    (localNodes : List CanvasNode) (sessions : List ChatSession) (r : RemoteStore) :
    (remotePushEffect userId canvasId now localNodes sessions r).canvases = r.canvases := by
  unfold remotePushEffect
  rw [sessionsFold_tables]
  by_cases hempty : localNodes.isEmpty
  · rw [if_pos hempty]
  · rw [if_neg hempty]
    rfl

theorem updateCanvas_ids (r : RemoteStore) (canvasId name : String) (now : ℤ) :
    (Supa.updateCanvas r canvasId name now).canvases.map RemoteCanvasRow.id =
      r.canvases.map RemoteCanvasRow.id := by
  unfold Supa.updateCanvas
  rw [List.map_map]
  refine List.map_congr_left fun c _ => ?_
  by_cases h : c.id = canvasId
  · simp [h]
  · simp [h]

/-- C10: SupabaseDB.getCanvas still returns a soft-deleted canvas while
getAllCanvases filters it out; consequently syncCanvasToCloud on such a
canvas takes the remote-exists branch — no canvas row is created and the
soft-delete marker survives the push — while the canvas's local nodes and
chat sessions are still upserted into the remote tables. -/
theorem syncCanvasToCloud_soft_deleted (now : ℤ) (canvasId uid : String) (s : SyncState)
    (row : RemoteCanvasRow) (localCanvas : LocalCanvas) (d : ℤ)
    (hu : s.userId = some uid)
    (hl : Db.getCanvas s.localStore canvasId = some localCanvas)
    (hrow : Supa.getCanvasRow s.remote canvasId = some row)
    (hd : row.deletedAt = some d)
    (hnodupc : (s.remote.canvases.map RemoteCanvasRow.id).Nodup) :
    (Supa.getCanvas s.remote canvasId).isSome = true ∧
    (∀ v ∈ Supa.getAllCanvases s.remote uid, v.id ≠ canvasId) ∧
    ((Sync.syncCanvasToCloud now canvasId s []).1.remote.canvases.map RemoteCanvasRow.id =
      s.remote.canvases.map RemoteCanvasRow.id) ∧
    (∀ c ∈ (Sync.syncCanvasToCloud now canvasId s []).1.remote.canvases,
        c.id = canvasId → c.deletedAt = some d) ∧
    (∀ n ∈ Db.getCanvasNodes s.localStore canvasId,
        n.id ∈ (Sync.syncCanvasToCloud now canvasId s []).1.remote.nodes.map
          RemoteNodeRow.id) ∧
    (∀ cs ∈ Db.getChatSessions s.localStore canvasId,
        cs.id ∈ (Sync.syncCanvasToCloud now canvasId s []).1.remote.chatSessions.map
          RemoteChatSessionRow.id) := by
  have hcloud : Supa.getCanvas s.remote canvasId =
      some { id := row.id, name := row.name, nodes := Supa.getCanvasNodes s.remote canvasId,
             createdAt := row.createdAt, updatedAt := row.updatedAt } := by
    unfold Supa.getCanvas
    rw [hrow]
  have hresult : (Sync.syncCanvasToCloud now canvasId s []).1.remote =
      remotePushEffect uid canvasId now (Db.getCanvasNodes s.localStore canvasId)
        (Db.getChatSessions s.localStore canvasId)
        (if localCanvas.updatedAt > row.updatedAt then
           Supa.updateCanvas s.remote canvasId localCanvas.name now
         else s.remote) := by
    unfold Sync.syncCanvasToCloud
    rw [hu, syncCanvasToCloudCore_remote_exists now canvasId uid s.localStore s.remote localCanvas
      { id := row.id, name := row.name, nodes := Supa.getCanvasNodes s.remote canvasId,
        createdAt := row.createdAt, updatedAt := row.updatedAt } hl hcloud]
  have hbaseCanvases :
      (if localCanvas.updatedAt > row.updatedAt then
          Supa.updateCanvas s.remote canvasId localCanvas.name now
        else s.remote).canvases.map RemoteCanvasRow.id =
        s.remote.canvases.map RemoteCanvasRow.id := by
    by_cases hcmp : localCanvas.updatedAt > row.updatedAt
    · rw [if_pos hcmp, updateCanvas_ids]
    · rw [if_neg hcmp]
  refine ⟨?_, ?_, ?_, ?_, ?_, ?_⟩
  · rw [hcloud]
    rfl
  · intro v hv hcontra
    unfold Supa.getAllCanvases at hv
    rcases List.mem_map.mp hv with ⟨frow, hfrow, hview⟩
    have hmemfilter : frow ∈ s.remote.canvases.filter
        fun c => c.userId = uid && decide (c.deletedAt = none) := by
      exact (List.mergeSort_perm _ _).mem_iff.mp hfrow
    have hmem := List.mem_filter.mp hmemfilter
    have hfid : frow.id = canvasId := by
      rw [← hcontra, ← hview]
    have heqrow : frow = row := find?_key_unique RemoteCanvasRow.id hnodupc hrow hmem.1 hfid
    have hdel : frow.deletedAt = none := by
      have := hmem.2
      simp only [Bool.and_eq_true, decide_eq_true_eq] at this
      exact this.2
    rw [heqrow, hd] at hdel
    cases hdel
  · rw [hresult, remotePushEffect_canvases, hbaseCanvases]
  · intro c hc hcid
    rw [hresult] at hc
    rw [show (remotePushEffect uid canvasId now (Db.getCanvasNodes s.localStore canvasId)
        (Db.getChatSessions s.localStore canvasId)
        (if localCanvas.updatedAt > row.updatedAt then
           Supa.updateCanvas s.remote canvasId localCanvas.name now
         else s.remote)).canvases =
      (if localCanvas.updatedAt > row.updatedAt then
           Supa.updateCanvas s.remote canvasId localCanvas.name now
         else s.remote).canvases from remotePushEffect_canvases uid canvasId now _ _ _] at hc
    by_cases hcmp : localCanvas.updatedAt > row.updatedAt
    · rw [if_pos hcmp] at hc
      unfold Supa.updateCanvas at hc
      rcases List.mem_map.mp hc with ⟨orig, horig, hrepl⟩
      by_cases ho : orig.id = canvasId
      · have heqrow : orig = row := find?_key_unique RemoteCanvasRow.id hnodupc hrow horig ho
        rw [if_pos ho] at hrepl
        rw [← hrepl, heqrow]
        exact hd
      · rw [if_neg ho] at hrepl
        exact absurd (hrepl ▸ hcid) ho
    · rw [if_neg hcmp] at hc
      have heqrow : c = row := find?_key_unique RemoteCanvasRow.id hnodupc hrow hc hcid
      rw [heqrow]
      exact hd
  · intro n hn
    rw [hresult]
    unfold remotePushEffect
    rw [sessionsFold_tables]
    have hnotempty : (Db.getCanvasNodes s.localStore canvasId).isEmpty = false := by
      cases hL : Db.getCanvasNodes s.localStore canvasId with
      | nil => rw [hL] at hn; cases hn
      | cons a t => rfl
    rw [if_neg (by rw [hnotempty]; exact Bool.false_ne_true)]
    unfold Supa.bulkUpsertNodes
    exact foldl_upsertByKey_key_mem RemoteNodeRow.id (Supa.stampNodeRow now)
      (fun x => rfl)
      (List.mem_map_of_mem (Supa.canvasNodeToInsertRow uid canvasId) hn) _
  · intro cs hcs
    rw [hresult]
    unfold remotePushEffect
    rw [sessionsFold_tables]
    exact foldl_upsertByKey_key_mem RemoteChatSessionRow.id (Supa.stampSessionRow now)
      (fun x => rfl)
      (List.mem_map_of_mem (Supa.chatSessionToInsertRow uid canvasId) hcs) _

/-- A concrete state whose remote canvas c1 is soft-deleted. -/
def softDeletedScenarioState : SyncState :=
  { userId := some "u",
    localStore :=
      { canvases := [{ id := "c1", name := "Notes", nodes := [], createdAt := 0,
                       updatedAt := 50 }],
        nodes := [], chatSessions := [] },
    remote :=
      { canvases := [{ id := "c1", userId := "u", name := "Notes", createdAt := 0,
                       updatedAt := 40, deletedAt := some 5 }],
        nodes := [], chatSessions := [] },
    queue := [], online := true, statusLog := [] }

/-- C10 witness at the concrete soft-deleted scenario. -/
theorem syncCanvasToCloud_soft_deleted_witness :
    (Supa.getCanvas softDeletedScenarioState.remote "c1").isSome = true ∧
    (∀ v ∈ Supa.getAllCanvases softDeletedScenarioState.remote "u", v.id ≠ "c1") ∧
    ((Sync.syncCanvasToCloud 7 "c1" softDeletedScenarioState []).1.remote.canvases.map
        RemoteCanvasRow.id =
      softDeletedScenarioState.remote.canvases.map RemoteCanvasRow.id) ∧
    (∀ c ∈ (Sync.syncCanvasToCloud 7 "c1" softDeletedScenarioState []).1.remote.canvases,
        c.id = "c1" → c.deletedAt = some 5) ∧
    (∀ n ∈ Db.getCanvasNodes softDeletedScenarioState.localStore "c1",
        n.id ∈ (Sync.syncCanvasToCloud 7 "c1" softDeletedScenarioState []).1.remote.nodes.map
          RemoteNodeRow.id) ∧
    (∀ cs ∈ Db.getChatSessions softDeletedScenarioState.localStore "c1",
        cs.id ∈ (Sync.syncCanvasToCloud 7 "c1"
          softDeletedScenarioState []).1.remote.chatSessions.map RemoteChatSessionRow.id) :=
  syncCanvasToCloud_soft_deleted 7 "c1" "u" softDeletedScenarioState
    { id := "c1", userId := "u", name := "Notes", createdAt := 0, updatedAt := 40,
      deletedAt := some 5 }
    { id := "c1", name := "Notes", nodes := [], createdAt := 0, updatedAt := 50 }
    5 rfl rfl rfl rfl (by simp [softDeletedScenarioState])

/-! ## C9: sync never deletes local records -/

/-- Every record id of the first store is still an id of the second. -/
def keepsLocalRecords (before after : LocalStore) : Prop :=
  before.canvases.map LocalCanvas.id ⊆ after.canvases.map LocalCanvas.id ∧
  before.nodes.map CanvasNode.id ⊆ after.nodes.map CanvasNode.id ∧
  before.chatSessions.map ChatSession.id ⊆ after.chatSessions.map ChatSession.id

theorem keepsLocalRecords_refl (ls : LocalStore) : keepsLocalRecords ls ls :=
  ⟨List.Subset.refl _, List.Subset.refl _, List.Subset.refl _⟩

theorem keepsLocalRecords_trans {a b c : LocalStore} (h1 : keepsLocalRecords a b)
    (h2 : keepsLocalRecords b c) : keepsLocalRecords a c :=
  ⟨h1.1.trans h2.1, h1.2.1.trans h2.2.1, h1.2.2.trans h2.2.2⟩

theorem keepsLocalRecords_addCanvas (ls : LocalStore) (c : LocalCanvas) :
    keepsLocalRecords ls (Db.addCanvas ls c) := by
  refine ⟨?_, List.Subset.refl _, List.Subset.refl _⟩
  show ls.canvases.map LocalCanvas.id ⊆ (ls.canvases ++ [c]).map LocalCanvas.id
  rw [List.map_append]
  exact List.subset_append_left _ _

theorem keepsLocalRecords_updateCanvas (ls : LocalStore) (id : String) (name? : Option String)
    (nodes? : Option (List String)) (now : ℤ) :
    keepsLocalRecords ls (Db.updateCanvas ls id name? nodes? now) := by
  refine ⟨?_, List.Subset.refl _, List.Subset.refl _⟩
  have heq : (Db.updateCanvas ls id name? nodes? now).canvases.map LocalCanvas.id =
      ls.canvases.map LocalCanvas.id := by
    unfold Db.updateCanvas
    rw [List.map_map]
    refine List.map_congr_left fun c _ => ?_
    by_cases h : c.id = id
    · simp [h]
    · simp [h]
  rw [heq]
  exact List.Subset.refl _

theorem keepsLocalRecords_mergeNodeStep (now : ℤ) (acc : LocalStore) (node : CanvasNode) :
    keepsLocalRecords acc (mergeNodeStep now acc node) := by
  have hframe := mergeNodeStep_frame now acc node
  refine ⟨hframe.1 ▸ List.Subset.refl _, ?_, hframe.2 ▸ List.Subset.refl _⟩
  unfold mergeNodeStep
  cases Db.getNode acc node.id with
  | none =>
    show acc.nodes.map CanvasNode.id ⊆ (acc.nodes ++ [node]).map CanvasNode.id
    rw [List.map_append]
    exact List.subset_append_left _ _
  | some localNode =>
    show acc.nodes.map CanvasNode.id ⊆
      (if node.updatedAt > localNode.updatedAt then Db.updateNodeFull acc node.id node now
       else acc).nodes.map CanvasNode.id
    by_cases h : node.updatedAt > localNode.updatedAt
    · rw [if_pos h]
      have heq : (Db.updateNodeFull acc node.id node now).nodes.map CanvasNode.id =
          acc.nodes.map CanvasNode.id := by
        unfold Db.updateNodeFull
        rw [List.map_map]
        refine List.map_congr_left fun n _ => ?_
        by_cases hn : n.id = node.id
        · simp [hn]
        · simp [hn]
      rw [heq]
      exact List.Subset.refl _
    · rw [if_neg h]
      exact List.Subset.refl _

theorem keepsLocalRecords_mergeNodeFold (now : ℤ) (L : List CanvasNode) :
    ∀ (acc : LocalStore), keepsLocalRecords acc (L.foldl (mergeNodeStep now) acc) := by
  induction L with
  | nil => exact fun acc => keepsLocalRecords_refl acc
  | cons n t ih =>
    intro acc
    exact keepsLocalRecords_trans (keepsLocalRecords_mergeNodeStep now acc n) (ih _)

theorem keepsLocalRecords_mergeSessionStep (now : ℤ) (acc : LocalStore) (sess : ChatSession) :
    keepsLocalRecords acc (mergeSessionStep now acc sess) := by
  refine ⟨List.Subset.refl _, List.Subset.refl _, ?_⟩
  have heq : (mergeSessionStep now acc sess).chatSessions.map ChatSession.id =
      acc.chatSessions.map ChatSession.id := by
    unfold mergeSessionStep Db.updateChatSessionFull
    rw [List.map_map]
    refine List.map_congr_left fun c _ => ?_
    by_cases h : c.id = sess.id
    · simp [h]
    · simp [h]
  rw [heq]
  exact List.Subset.refl _

theorem keepsLocalRecords_mergeSessionFold (now : ℤ) (L : List ChatSession) :
    ∀ (acc : LocalStore), keepsLocalRecords acc (L.foldl (mergeSessionStep now) acc) := by
  induction L with
  | nil => exact fun acc => keepsLocalRecords_refl acc
  | cons sess t ih =>
    intro acc
    exact keepsLocalRecords_trans (keepsLocalRecords_mergeSessionStep now acc sess) (ih _)

theorem keepsLocalRecords_saveCloudCanvasToLocal (now : ℤ) (cloud : CloudCanvas)
    (ls : LocalStore) :
    keepsLocalRecords ls (Sync.saveCloudCanvasToLocal now cloud ls) := by
  rw [saveCloudCanvasToLocal_eq_fold]
  cases hcv : Db.getCanvas ls cloud.id with
  | none =>
    exact keepsLocalRecords_trans (keepsLocalRecords_addCanvas ls _)
      (keepsLocalRecords_mergeNodeFold now cloud.nodes _)
  | some lc =>
    exact keepsLocalRecords_trans (keepsLocalRecords_updateCanvas ls cloud.id _ _ now)
      (keepsLocalRecords_mergeNodeFold now cloud.nodes _)

theorem keepsLocalRecords_mergeCloudCanvases (now : ℤ) (L : List CloudCanvas) :
    ∀ (ls : LocalStore), keepsLocalRecords ls (Sync.mergeCloudCanvases now L ls) := by
  induction L with
  | nil => exact fun ls => keepsLocalRecords_refl ls
  | cons cloud rest ih =>
    intro ls
    unfold Sync.mergeCloudCanvases
    cases hcv : Db.getCanvas ls cloud.id with
    | none =>
      exact keepsLocalRecords_trans (keepsLocalRecords_saveCloudCanvasToLocal now cloud ls) (ih _)
    | some lc =>
      show keepsLocalRecords ls (Sync.mergeCloudCanvases now rest
        (if cloud.updatedAt > lc.updatedAt then Sync.saveCloudCanvasToLocal now cloud ls else ls))
      by_cases hcmp : cloud.updatedAt > lc.updatedAt
      · rw [if_pos hcmp]
        exact keepsLocalRecords_trans (keepsLocalRecords_saveCloudCanvasToLocal now cloud ls)
          (ih _)
      · rw [if_neg hcmp]
        exact ih ls

theorem syncCanvasToCloud_localStore (now : ℤ) (canvasId : String) (s : SyncState)
    (sched : Sched) :
    (Sync.syncCanvasToCloud now canvasId s sched).1.localStore = s.localStore := by
  unfold Sync.syncCanvasToCloud
  cases hcore : Sync.syncCanvasToCloudCore now canvasId s.userId s.localStore s.remote sched with
  | mk r rest =>
    cases rest with
    | mk enq sched1 => rfl

theorem pushAllCanvases_localStore (now : ℤ) (L : List LocalCanvas) :
    ∀ (s : SyncState) (sched : Sched),
      (Sync.pushAllCanvases now L s sched).1.localStore = s.localStore := by
  induction L with
  | nil => exact fun s sched => rfl
  | cons canvas rest ih =>
    intro s sched
    unfold Sync.pushAllCanvases
    cases hstep : Sync.syncCanvasToCloud now canvas.id s sched with
    | mk s1 sched1 =>
      rw [ih s1 sched1]
      have := syncCanvasToCloud_localStore now canvas.id s sched
      rw [hstep] at this
      exact this

/-- C9: no sync operation deletes a local record — every canvas, node and
chat session present in the local store before syncCanvasToCloud,
syncCanvasFromCloud or fullSync (under any failure schedule) is still present
afterwards. -/
theorem sync_never_deletes_local_records (now : ℤ) (canvasId : String) (s : SyncState)
    (sched : Sched) :
    keepsLocalRecords s.localStore ((Sync.syncCanvasToCloud now canvasId s sched).1.localStore) ∧
    keepsLocalRecords s.localStore
      ((Sync.syncCanvasFromCloud now canvasId s sched).1.localStore) ∧
    keepsLocalRecords s.localStore ((Sync.fullSync now s sched).1.localStore) := by
  refine ⟨?_, ?_, ?_⟩
  · rw [syncCanvasToCloud_localStore]
    exact keepsLocalRecords_refl _
  · show keepsLocalRecords s.localStore
      (Sync.syncCanvasFromCloudCore now canvasId s.userId s.localStore s.remote sched).1
    unfold Sync.syncCanvasFromCloudCore
    cases s.userId with
    | none => exact keepsLocalRecords_refl _
    | some uid =>
      cases schedNext sched with
      | mk failGet sched1 =>
        by_cases hfail : failGet
        · simp only [hfail, if_true]
          exact keepsLocalRecords_refl _
        · simp only [hfail]
          cases hcloud : Supa.getCanvas s.remote canvasId with
          | none =>
            simp only [Bool.false_eq_true, if_false]
            exact keepsLocalRecords_refl _
          | some cloud =>
            simp only [Bool.false_eq_true, if_false]
            cases schedNext sched1 with
            | mk failSess sched2 =>
              by_cases hfs : failSess
              · simp only [hfs, if_true]
                exact keepsLocalRecords_saveCloudCanvasToLocal now cloud s.localStore
              · simp only [hfs, Bool.false_eq_true, if_false]
                exact keepsLocalRecords_trans
                  (keepsLocalRecords_saveCloudCanvasToLocal now cloud s.localStore)
                  (keepsLocalRecords_mergeSessionFold now _ _)
  · unfold Sync.fullSync
    cases s.userId with
    | none => exact keepsLocalRecords_refl _
    | some uid =>
      dsimp only
      set p := Sync.pushAllCanvases now
        (Db.getAllCanvases (Sync.updateStatus s SyncStatus.syncing).localStore)
        (Sync.updateStatus s SyncStatus.syncing) sched with hp
      have hpls : p.1.localStore = s.localStore :=
        pushAllCanvases_localStore now
          (Db.getAllCanvases (Sync.updateStatus s SyncStatus.syncing).localStore)
          (Sync.updateStatus s SyncStatus.syncing) sched
      by_cases hfail : (schedNext p.2).1 = true
      · rw [if_pos hfail]
        show keepsLocalRecords s.localStore p.1.localStore
        rw [hpls]
        exact keepsLocalRecords_refl _
      · rw [if_neg hfail]
        show keepsLocalRecords s.localStore
          (Sync.mergeCloudCanvases now (Supa.getAllCanvases p.1.remote uid) p.1.localStore)
        have hkeep := keepsLocalRecords_mergeCloudCanvases now
          (Supa.getAllCanvases p.1.remote uid) p.1.localStore
        rw [hpls] at hkeep
        rw [hpls]
        exact hkeep

/-! ## C6: what two successive pushes do to the remote store -/

/-- Canonicalize a canvas row by zeroing the trigger-controlled updated_at. -/
def eraseCanvasRowTime (c : RemoteCanvasRow) : RemoteCanvasRow := { c with updatedAt := 0 }

/-- Canonicalize a node row by zeroing the trigger-controlled updated_at. -/
def eraseNodeRowTime (n : RemoteNodeRow) : RemoteNodeRow := { n with updatedAt := 0 }

/-- Canonicalize a session row by zeroing the trigger-controlled updated_at. -/
def eraseSessionRowTime (c : RemoteChatSessionRow) : RemoteChatSessionRow :=
  { c with updatedAt := 0 }

/-- A remote store up to the updated_at columns the schema triggers rewrite. -/
def eraseRemoteTimes (r : RemoteStore) : RemoteStore :=
  { canvases := r.canvases.map eraseCanvasRowTime,
    nodes := r.nodes.map eraseNodeRowTime,
    chatSessions := r.chatSessions.map eraseSessionRowTime }

theorem map_er_upsertByKey {α : Type} (key : α → String) (er stamp : α → α)
    (hkey : ∀ x, key (er x) = key x) (hstamp : ∀ x, er (stamp x) = er x)
    (rows : List α) (row : α) :
    (upsertByKey key stamp rows row).map er =
      upsertByKey key (fun x => x) (rows.map er) (er row) := by
  unfold upsertByKey
  have hany : ((rows.map er).any fun x => key x = key (er row)) =
      (rows.any fun x => key x = key row) := by
    rw [List.any_map]
    congr 1
    funext x
    simp [hkey]
  by_cases h : (rows.any fun x => key x = key row) = true
  · rw [if_pos h, if_pos (by rw [hany]; exact h)]
    rw [List.map_map, List.map_map]
    refine List.map_congr_left fun x _ => ?_
    by_cases hx : key x = key row
    · show er (if key x = key row then stamp row else x) =
        if key (er x) = key (er row) then er row else er x
      rw [if_pos hx, if_pos (by rw [hkey, hkey]; exact hx), hstamp]
    · show er (if key x = key row then stamp row else x) =
        if key (er x) = key (er row) then er row else er x
      rw [if_neg hx, if_neg (by rw [hkey, hkey]; exact hx)]
  · rw [if_neg h, if_neg (by rw [hany]; exact h)]
    rw [List.map_append]
    rfl

theorem map_er_foldl_upsertByKey {α : Type} (key : α → String) (er stamp : α → α)
    (hkey : ∀ x, key (er x) = key x) (hstamp : ∀ x, er (stamp x) = er x) (L : List α) :
    ∀ (M : List α),
      (L.foldl (upsertByKey key stamp) M).map er =
        (L.map er).foldl (upsertByKey key (fun x => x)) (M.map er) := by
  induction L with
  | nil => exact fun M => rfl
  | cons a t ih =>
    intro M
    simp only [List.foldl_cons, List.map_cons]
    rw [ih, map_er_upsertByKey key er stamp hkey hstamp]

theorem upsertByKey_id_lookup {α : Type} (key : α → String) (rows : List α) (row : α)
    (i : String) :
    (upsertByKey key (fun x => x) rows row).find? (fun x => decide (key x = i)) =
      if i = key row then some row
      else rows.find? fun x => decide (key x = i) := by
  unfold upsertByKey
  by_cases hany : (rows.any fun x => key x = key row) = true
  · rw [if_pos hany]
    by_cases hi : i = key row
    · rw [if_pos hi]
      subst hi
      refine find?_key_replace_self key row rfl ?_
      rw [List.find?_isSome]
      rcases List.any_eq_true.mp hany with ⟨x, hx, hkx⟩
      exact ⟨x, hx, hkx⟩
    · rw [if_neg hi]
      exact find?_key_replace_other key row rfl fun hcontra => hi hcontra.symm
  · rw [if_neg hany]
    rw [find?_key_append_one key]
    by_cases hi : i = key row
    · rw [if_pos hi]
      have hanyf : (rows.any fun x => decide (key x = key row)) = false :=
        Bool.eq_false_iff.mpr hany
      have hnone : rows.find? (fun x => decide (key x = i)) = none := by
        rw [List.find?_eq_none]
        intro x hx
        simp only [decide_eq_true_eq]
        intro hcontra
        have hfalse := List.any_eq_false.mp hanyf x hx
        simp only [decide_eq_true_eq] at hfalse
        exact hfalse (by rw [hcontra, hi])
      rw [hnone, if_pos hi.symm]
    · rw [if_neg hi]
      cases hf : rows.find? fun x => decide (key x = i) with
      | some v => rfl
      | none => rw [if_neg fun hcontra => hi hcontra.symm]

theorem upsertByKey_id_self_noop {α : Type} (key : α → String) {rows : List α}
    (hnodup : (rows.map key).Nodup) {row : α}
    (hfind : rows.find? (fun x => decide (key x = key row)) = some row) :
    upsertByKey key (fun x => x) rows row = rows := by
  unfold upsertByKey
  have hany : (rows.any fun x => key x = key row) = true := by
    rcases List.find?_isSome.mp (by rw [hfind]; rfl) with ⟨x, hx, hkx⟩
    exact List.any_eq_true.mpr ⟨x, hx, hkx⟩
  rw [if_pos hany]
  have : (rows.map fun x => if key x = key row then row else x) = rows.map id := by
    refine List.map_congr_left fun x hx => ?_
    by_cases hk : key x = key row
    · rw [if_pos hk]
      exact (find?_key_unique key hnodup hfind hx hk).symm
    · rw [if_neg hk]
      rfl
  rw [this, List.map_id]

theorem upsertByKey_keys_of_present {α : Type} (key : α → String) (stamp : α → α)
    (hsk : ∀ x, key (stamp x) = key x) {rows : List α} {row : α}
    (hany : (rows.any fun x => key x = key row) = true) :
    (upsertByKey key stamp rows row).map key = rows.map key := by
  unfold upsertByKey
  rw [if_pos hany, List.map_map]
  refine List.map_congr_left fun x _ => ?_
  by_cases hk : key x = key row
  · show key (if key x = key row then stamp row else x) = key x
    rw [if_pos hk, hsk, hk]
  · show key (if key x = key row then stamp row else x) = key x
    rw [if_neg hk]

theorem upsertByKey_keys_nodup {α : Type} (key : α → String) (stamp : α → α)
    (hsk : ∀ x, key (stamp x) = key x) {rows : List α}
    (hnodup : (rows.map key).Nodup) (row : α) :
    ((upsertByKey key stamp rows row).map key).Nodup := by
  by_cases hany : (rows.any fun x => key x = key row) = true
  · rw [upsertByKey_keys_of_present key stamp hsk hany]
    exact hnodup
  · unfold upsertByKey
    rw [if_neg hany, List.map_append]
    rw [List.nodup_append]
    refine ⟨hnodup, List.nodup_singleton _, ?_⟩
    intro j hj hj1
    rcases List.mem_map.mp hj with ⟨x, hx, hkx⟩
    have hfalse := List.any_eq_false.mp (Bool.eq_false_iff.mpr hany) x hx
    simp only [decide_eq_true_eq] at hfalse
    rcases List.mem_singleton.mp hj1 with rfl
    exact hfalse hkx

theorem foldl_upsertByKey_keys_nodup {α : Type} (key : α → String) (stamp : α → α)
    (hsk : ∀ x, key (stamp x) = key x) (L : List α) :
    ∀ {M : List α}, (M.map key).Nodup → ((L.foldl (upsertByKey key stamp) M).map key).Nodup := by
  induction L with
  | nil => exact fun h => h
  | cons a t ih =>
    intro M hM
    exact ih (upsertByKey_keys_nodup key stamp hsk hM a)

theorem foldl_upsertByKey_id_lookup_not_in {α : Type} (key : α → String) (L : List α)
    {i : String} (hi : ∀ r ∈ L, key r ≠ i) :
    ∀ (M : List α),
      (L.foldl (upsertByKey key (fun x => x)) M).find? (fun x => decide (key x = i)) =
        M.find? fun x => decide (key x = i) := by
  induction L with
  | nil => exact fun M => rfl
  | cons a t ih =>
    intro M
    simp only [List.foldl_cons]
    rw [ih fun r hr => hi r (List.mem_cons_of_mem _ hr)]
    rw [upsertByKey_id_lookup]
    rw [if_neg fun hcontra => hi a (List.mem_cons_self _ _) hcontra.symm]

theorem foldl_upsertByKey_id_lookup_mem {α : Type} (key : α → String) :
    ∀ {L : List α}, (L.map key).Nodup → ∀ {r : α}, r ∈ L →
    ∀ (M : List α),
      (L.foldl (upsertByKey key (fun x => x)) M).find? (fun x => decide (key x = key r)) =
        some r := by
  intro L
  induction L with
  | nil =>
    intro _ r hr
    cases hr
  | cons a t ih =>
    intro hnodup r hr M
    simp only [List.map_cons, List.nodup_cons] at hnodup
    simp only [List.foldl_cons]
    rcases List.mem_cons.mp hr with heq | hmem
    · subst heq
      rw [foldl_upsertByKey_id_lookup_not_in key t
        (fun x hx hcontra => hnodup.1 (by rw [← hcontra]; exact List.mem_map_of_mem key hx))]
      rw [upsertByKey_id_lookup, if_pos rfl]
    · exact ih hnodup.2 hmem _

theorem foldl_upsertByKey_id_idem {α : Type} (key : α → String) :
    ∀ (L : List α), (L.map key).Nodup →
    ∀ (M : List α), (M.map key).Nodup →
      L.foldl (upsertByKey key (fun x => x)) (L.foldl (upsertByKey key (fun x => x)) M) =
        L.foldl (upsertByKey key (fun x => x)) M := by
  intro L
  induction L with
  | nil => exact fun _ M _ => rfl
  | cons a t ih =>
    intro hnodup M hM
    simp only [List.map_cons, List.nodup_cons] at hnodup
    simp only [List.foldl_cons]
    have hcons : ((a :: t).map key).Nodup := by
      rw [List.map_cons]
      exact List.nodup_cons.mpr hnodup
    have hTkeys : (((a :: t).foldl (upsertByKey key (fun x => x)) M).map key).Nodup :=
      foldl_upsertByKey_keys_nodup key (fun x => x) (fun x => rfl) (a :: t) hM
    simp only [List.foldl_cons] at hTkeys
    have hfindT : ((a :: t).foldl (upsertByKey key (fun x => x)) M).find?
        (fun x => decide (key x = key a)) = some a :=
      foldl_upsertByKey_id_lookup_mem key hcons (List.mem_cons_self a t) M
    simp only [List.foldl_cons] at hfindT
    have hnoop : upsertByKey key (fun x => x)
        (t.foldl (upsertByKey key (fun x => x)) (upsertByKey key (fun x => x) M a)) a =
        t.foldl (upsertByKey key (fun x => x)) (upsertByKey key (fun x => x) M a) :=
      upsertByKey_id_self_noop key hTkeys hfindT
    rw [hnoop]
    exact ih hnodup.2 (upsertByKey key (fun x => x) M a)
      (upsertByKey_keys_nodup key (fun x => x) (fun x => rfl) hM a)

/-- The canvas-row step of a successful push: create when the id is absent
remotely, rename (trigger-stamping updated_at) when the local copy is
strictly newer, otherwise leave the table alone. -/
def canvasPushStep (uid name : String) (localUpd : ℤ) (canvasId : String) (now : ℤ)
    (rows : List RemoteCanvasRow) : List RemoteCanvasRow :=
  match rows.find? fun c => decide (c.id = canvasId) with
  | none =>
      rows ++ [{ id := canvasId, userId := uid, name := name, createdAt := now,
                 updatedAt := now, deletedAt := none }]
  | some row =>
      if localUpd > row.updatedAt then
        rows.map fun c => if c.id = canvasId then { c with name := name, updatedAt := now } else c
      else rows

theorem syncCanvasToCloud_frame (now : ℤ) (canvasId : String) (s : SyncState) (sched : Sched) :
    (Sync.syncCanvasToCloud now canvasId s sched).1.userId = s.userId ∧
    (Sync.syncCanvasToCloud now canvasId s sched).1.localStore = s.localStore := by
  unfold Sync.syncCanvasToCloud
  cases hcore : Sync.syncCanvasToCloudCore now canvasId s.userId s.localStore s.remote sched with
  | mk r rest =>
    cases rest with
    | mk enq sched1 => exact ⟨rfl, rfl⟩

theorem syncCanvasToCloud_noop_no_user (now : ℤ) (canvasId : String) (s : SyncState)
    (sched : Sched) (h : s.userId = none) :
    Sync.syncCanvasToCloud now canvasId s sched = (s, sched) := by
  cases s with
  | mk u ls r q o log =>
    cases h
    simp [Sync.syncCanvasToCloud, Sync.syncCanvasToCloudCore]

theorem syncCanvasToCloud_noop_no_canvas (now : ℤ) (canvasId : String) (s : SyncState)
    (sched : Sched) (uid : String) (hu : s.userId = some uid)
    (h : Db.getCanvas s.localStore canvasId = none) :
    Sync.syncCanvasToCloud now canvasId s sched = (s, sched) := by
  cases s with
  | mk u ls r q o log =>
    simp only at hu h
    cases hu
    simp [Sync.syncCanvasToCloud, Sync.syncCanvasToCloudCore, h]

theorem syncCanvasToCloud_success (now : ℤ) (canvasId uid : String) (s : SyncState)
    (lc : LocalCanvas) (hu : s.userId = some uid)
    (hl : Db.getCanvas s.localStore canvasId = some lc) :
    (Sync.syncCanvasToCloud now canvasId s []).1 =
      { s with remote := (remotePushEffect uid canvasId now
          (Db.getCanvasNodes s.localStore canvasId)
          (Db.getChatSessions s.localStore canvasId)
          { s.remote with canvases := (canvasPushStep uid lc.name lc.updatedAt canvasId now
              s.remote.canvases) }) } := by
  have hcore : Sync.syncCanvasToCloudCore now canvasId s.userId s.localStore s.remote [] =
      (remotePushEffect uid canvasId now (Db.getCanvasNodes s.localStore canvasId)
         (Db.getChatSessions s.localStore canvasId)
         { s.remote with canvases := (canvasPushStep uid lc.name lc.updatedAt canvasId now
             s.remote.canvases) },
       false, []) := by
    rw [hu]
    cases hfind : s.remote.canvases.find? fun c => decide (c.id = canvasId) with
    | none =>
      have hcloud : Supa.getCanvas s.remote canvasId = none := by
        unfold Supa.getCanvas Supa.getCanvasRow
        rw [hfind]
      unfold Sync.syncCanvasToCloudCore
      rw [hl]
      simp only [schedNext, Bool.false_eq_true, if_false]
      rw [hcloud]
      have hany : (s.remote.canvases.any fun c => c.id = canvasId) = false := by
        rw [List.any_eq_false]
        intro x hx
        exact List.find?_eq_none.mp hfind x hx
      have hcreate : Supa.createCanvas s.remote uid lc.name canvasId now =
          Except.ok { s.remote with canvases := s.remote.canvases ++
            [{ id := canvasId, userId := uid, name := lc.name, createdAt := now,
               updatedAt := now, deletedAt := none }] } := by
        unfold Supa.createCanvas
        rw [if_neg (by rw [hany]; exact Bool.false_ne_true)]
      rw [hcreate]
      show Sync.pushNodesAndSessions uid canvasId now (Db.getCanvasNodes s.localStore canvasId)
          (Db.getChatSessions s.localStore canvasId)
          { s.remote with canvases := s.remote.canvases ++
            [{ id := canvasId, userId := uid, name := lc.name, createdAt := now,
               updatedAt := now, deletedAt := none }] } [] = _
      rw [pushNodesAndSessions_noFail]
      unfold canvasPushStep
      rw [hfind]
    | some row =>
      have hcloud : Supa.getCanvas s.remote canvasId =
          some { id := row.id, name := row.name, nodes := Supa.getCanvasNodes s.remote canvasId,
                 createdAt := row.createdAt, updatedAt := row.updatedAt } := by
        unfold Supa.getCanvas Supa.getCanvasRow
        rw [hfind]
      rw [syncCanvasToCloudCore_remote_exists now canvasId uid s.localStore s.remote lc _ hl
        hcloud]
      unfold canvasPushStep
      rw [hfind]
      show _ = (remotePushEffect uid canvasId now (Db.getCanvasNodes s.localStore canvasId)
          (Db.getChatSessions s.localStore canvasId)
          { s.remote with canvases := (if lc.updatedAt > row.updatedAt then
              s.remote.canvases.map (fun c =>
                if c.id = canvasId then { c with name := lc.name, updatedAt := now } else c)
            else s.remote.canvases) },
        false, [])
      by_cases hcmp : lc.updatedAt > row.updatedAt
      · rw [if_pos hcmp, if_pos hcmp]
        rfl
      · rw [if_neg hcmp, if_neg hcmp]
  unfold Sync.syncCanvasToCloud
  rw [hcore]
  rfl

/-- remotePushEffect written table by table: the canvases table is untouched,
nodes and chat_sessions receive the keyed upsert folds of the local payload. -/
theorem remotePushEffect_tables (uid cid : String) (now : ℤ) (LN : List CanvasNode)
    (LS : List ChatSession) (r : RemoteStore) :
    remotePushEffect uid cid now LN LS r =
      { canvases := r.canvases,
        nodes := (if LN.isEmpty then r.nodes
          else (LN.map (Supa.canvasNodeToInsertRow uid cid)).foldl
            (upsertByKey RemoteNodeRow.id (Supa.stampNodeRow now)) r.nodes),
        chatSessions := (LS.map (Supa.chatSessionToInsertRow uid cid)).foldl
          (upsertByKey RemoteChatSessionRow.id (Supa.stampSessionRow now)) r.chatSessions } := by
  unfold remotePushEffect
  by_cases hempty : LN.isEmpty
  · rw [if_pos hempty, if_pos hempty, sessionsFold_tables]
  · rw [if_neg hempty, if_neg hempty, sessionsFold_tables]
    rfl

/-- Repeating the node bulk upsert with the same payload changes node rows
only in their trigger-stamped updated_at column. -/
theorem nodesFold_twice_erased (uid cid : String) (now1 now2 : ℤ) (LN : List CanvasNode)
    (M : List RemoteNodeRow) (hnl : (LN.map CanvasNode.id).Nodup)
    (hnr : (M.map RemoteNodeRow.id).Nodup) :
    ((LN.map (Supa.canvasNodeToInsertRow uid cid)).foldl
        (upsertByKey RemoteNodeRow.id (Supa.stampNodeRow now2))
        ((LN.map (Supa.canvasNodeToInsertRow uid cid)).foldl
          (upsertByKey RemoteNodeRow.id (Supa.stampNodeRow now1)) M)).map eraseNodeRowTime =
      ((LN.map (Supa.canvasNodeToInsertRow uid cid)).foldl
        (upsertByKey RemoteNodeRow.id (Supa.stampNodeRow now1)) M).map eraseNodeRowTime := by
  have hkeys : (((LN.map (Supa.canvasNodeToInsertRow uid cid)).map eraseNodeRowTime).map
      RemoteNodeRow.id) = LN.map CanvasNode.id := by
    rw [List.map_map, List.map_map]
    exact List.map_congr_left fun n _ => rfl
  have hMkeys : ((M.map eraseNodeRowTime).map RemoteNodeRow.id) = M.map RemoteNodeRow.id := by
    rw [List.map_map]
    exact List.map_congr_left fun n _ => rfl
  rw [map_er_foldl_upsertByKey RemoteNodeRow.id eraseNodeRowTime (Supa.stampNodeRow now2)
    (fun x => rfl) (fun x => rfl)]
  rw [map_er_foldl_upsertByKey RemoteNodeRow.id eraseNodeRowTime (Supa.stampNodeRow now1)
    (fun x => rfl) (fun x => rfl)]
  exact foldl_upsertByKey_id_idem RemoteNodeRow.id _ (by rw [hkeys]; exact hnl) _
    (by rw [hMkeys]; exact hnr)

/-- Repeating the chat-session upsert loop with the same payload changes
session rows only in their trigger-stamped updated_at column. -/
theorem sessionsFold_twice_erased (uid cid : String) (now1 now2 : ℤ) (LS : List ChatSession)
    (M : List RemoteChatSessionRow) (hsl : (LS.map ChatSession.id).Nodup)
    (hsr : (M.map RemoteChatSessionRow.id).Nodup) :
    ((LS.map (Supa.chatSessionToInsertRow uid cid)).foldl
        (upsertByKey RemoteChatSessionRow.id (Supa.stampSessionRow now2))
        ((LS.map (Supa.chatSessionToInsertRow uid cid)).foldl
          (upsertByKey RemoteChatSessionRow.id (Supa.stampSessionRow now1)) M)).map
        eraseSessionRowTime =
      ((LS.map (Supa.chatSessionToInsertRow uid cid)).foldl
        (upsertByKey RemoteChatSessionRow.id (Supa.stampSessionRow now1)) M).map
        eraseSessionRowTime := by
  have hkeys : (((LS.map (Supa.chatSessionToInsertRow uid cid)).map eraseSessionRowTime).map
      RemoteChatSessionRow.id) = LS.map ChatSession.id := by
    rw [List.map_map, List.map_map]
    exact List.map_congr_left fun n _ => rfl
  have hMkeys : ((M.map eraseSessionRowTime).map RemoteChatSessionRow.id) =
      M.map RemoteChatSessionRow.id := by
    rw [List.map_map]
    exact List.map_congr_left fun n _ => rfl
  rw [map_er_foldl_upsertByKey RemoteChatSessionRow.id eraseSessionRowTime
    (Supa.stampSessionRow now2) (fun x => rfl) (fun x => rfl)]
  rw [map_er_foldl_upsertByKey RemoteChatSessionRow.id eraseSessionRowTime
    (Supa.stampSessionRow now1) (fun x => rfl) (fun x => rfl)]
  exact foldl_upsertByKey_id_idem RemoteChatSessionRow.id _ (by rw [hkeys]; exact hsl) _
    (by rw [hMkeys]; exact hsr)

/-- Running the canvas-row push step twice with the same local canvas touches
nothing beyond the trigger-stamped updated_at column, and never changes the
id column: the row is not re-created. -/
theorem canvasPushStep_twice (uid nm : String) (upd : ℤ) (cid : String) (now1 now2 : ℤ)
    (T : List RemoteCanvasRow) :
    (canvasPushStep uid nm upd cid now2 (canvasPushStep uid nm upd cid now1 T)).map
        eraseCanvasRowTime =
      (canvasPushStep uid nm upd cid now1 T).map eraseCanvasRowTime ∧
    (canvasPushStep uid nm upd cid now2 (canvasPushStep uid nm upd cid now1 T)).map
        RemoteCanvasRow.id =
      (canvasPushStep uid nm upd cid now1 T).map RemoteCanvasRow.id := by
  cases hfind : T.find? (fun c => decide (c.id = cid)) with
  | none =>
    set nr : RemoteCanvasRow :=
      { id := cid, userId := uid, name := nm, createdAt := now1, updatedAt := now1,
        deletedAt := none } with hnrdef
    have hT1 : canvasPushStep uid nm upd cid now1 T = T ++ [nr] := by
      rw [hnrdef]
      unfold canvasPushStep
      rw [hfind]
    have hfind1 : (T ++ [nr]).find? (fun c => decide (c.id = cid)) = some nr := by
      rw [find?_key_append_one RemoteCanvasRow.id, hfind]
      show (if nr.id = cid then some nr else none) = some nr
      rw [if_pos (show nr.id = cid from rfl)]
    have hstep2 : canvasPushStep uid nm upd cid now2 (T ++ [nr]) =
        (if upd > nr.updatedAt then
          (T ++ [nr]).map fun c =>
            if c.id = cid then { c with name := nm, updatedAt := now2 } else c
        else T ++ [nr]) := by
      unfold canvasPushStep
      rw [hfind1]
    rw [hT1, hstep2]
    by_cases hcmp : upd > nr.updatedAt
    · rw [if_pos hcmp]
      constructor
      · rw [List.map_map]
        refine List.map_congr_left fun c hc => ?_
        rcases List.mem_append.mp hc with hcT | hcnew
        · have hne : ¬ c.id = cid := by
            have := List.find?_eq_none.mp hfind c hcT
            simpa using this
          simp [Function.comp, hne]
        · rcases List.mem_singleton.mp hcnew with rfl
          rw [hnrdef]
          simp [Function.comp, eraseCanvasRowTime]
      · rw [List.map_map]
        refine List.map_congr_left fun c hc => ?_
        by_cases hcid : c.id = cid
        · simp [Function.comp, hcid]
        · simp [Function.comp, hcid]
    · rw [if_neg hcmp]
      exact ⟨rfl, rfl⟩
  | some row =>
    have hrow : row.id = cid := by simpa using List.find?_some hfind
    by_cases hcmp1 : upd > row.updatedAt
    · have hT1 : canvasPushStep uid nm upd cid now1 T =
          T.map fun c => if c.id = cid then { c with name := nm, updatedAt := now1 } else c := by
        unfold canvasPushStep
        rw [hfind]
        show (if upd > row.updatedAt then _ else T) = _
        rw [if_pos hcmp1]
      have hfind1 : (T.map fun c =>
            if c.id = cid then { c with name := nm, updatedAt := now1 } else c).find?
            (fun c => decide (c.id = cid)) =
          some { row with name := nm, updatedAt := now1 } := by
        rw [List.find?_map]
        have hpred : ((fun c : RemoteCanvasRow => decide (c.id = cid)) ∘ fun c =>
            if c.id = cid then { c with name := nm, updatedAt := now1 } else c) =
            fun c : RemoteCanvasRow => decide (c.id = cid) := by
          funext c
          by_cases hc : c.id = cid
          · simp [Function.comp, hc]
          · simp [Function.comp, hc]
        rw [hpred, hfind]
        show some (if row.id = cid then _ else row) = _
        rw [if_pos hrow]
      have hstep2 : canvasPushStep uid nm upd cid now2
          (T.map fun c => if c.id = cid then { c with name := nm, updatedAt := now1 } else c) =
          (if upd > now1 then
            (T.map fun c =>
              if c.id = cid then { c with name := nm, updatedAt := now1 } else c).map fun c =>
                if c.id = cid then { c with name := nm, updatedAt := now2 } else c
          else T.map fun c =>
            if c.id = cid then { c with name := nm, updatedAt := now1 } else c) := by
        unfold canvasPushStep
        rw [hfind1]
      rw [hT1, hstep2]
      by_cases hcmp2 : upd > now1
      · rw [if_pos hcmp2]
        constructor
        · simp only [List.map_map]
          refine List.map_congr_left fun c hc => ?_
          by_cases hc1 : c.id = cid
          · simp [Function.comp, eraseCanvasRowTime, hc1]
          · simp [Function.comp, hc1]
        · simp only [List.map_map]
          refine List.map_congr_left fun c hc => ?_
          by_cases hc1 : c.id = cid
          · simp [Function.comp, hc1]
          · simp [Function.comp, hc1]
      · rw [if_neg hcmp2]
        exact ⟨rfl, rfl⟩
    · have hT1 : canvasPushStep uid nm upd cid now1 T = T := by
        unfold canvasPushStep
        rw [hfind]
        show (if upd > row.updatedAt then _ else T) = T
        rw [if_neg hcmp1]
      have hstep2 : canvasPushStep uid nm upd cid now2 T = T := by
        unfold canvasPushStep
        rw [hfind]
        show (if upd > row.updatedAt then _ else T) = T
        rw [if_neg hcmp1]
      rw [hT1, hstep2]
      exact ⟨rfl, rfl⟩

/-- C6: Idempotence of syncCanvasToCloud holds only modulo the updated_at
columns that the supabase-schema BEFORE UPDATE triggers refresh: with no
intervening local mutation, the second call leaves the local store and the
offline queue unchanged, re-creates no canvas row (the id column of the
canvases table is unchanged), and produces a remote store identical to the
first call's except that re-upserted rows carry fresh trigger-stamped
updated_at values (erasing updated_at on every table makes the two remote
states equal). -/
theorem syncCanvasToCloud_idempotent_modulo_triggers (now1 now2 : ℤ) (canvasId uid : String)
    (s : SyncState) (lc : LocalCanvas)
    (hu : s.userId = some uid)
    (hl : Db.getCanvas s.localStore canvasId = some lc)
    (hnl : ((Db.getCanvasNodes s.localStore canvasId).map CanvasNode.id).Nodup)
    (hnr : (s.remote.nodes.map RemoteNodeRow.id).Nodup)
    (hsl : ((Db.getChatSessions s.localStore canvasId).map ChatSession.id).Nodup)
    (hsr : (s.remote.chatSessions.map RemoteChatSessionRow.id).Nodup) :
    eraseRemoteTimes (Sync.syncCanvasToCloud now2 canvasId
        (Sync.syncCanvasToCloud now1 canvasId s []).1 []).1.remote =
      eraseRemoteTimes (Sync.syncCanvasToCloud now1 canvasId s []).1.remote ∧
    (Sync.syncCanvasToCloud now2 canvasId
        (Sync.syncCanvasToCloud now1 canvasId s []).1 []).1.remote.canvases.map
        RemoteCanvasRow.id =
      (Sync.syncCanvasToCloud now1 canvasId s []).1.remote.canvases.map RemoteCanvasRow.id ∧
    (Sync.syncCanvasToCloud now2 canvasId
        (Sync.syncCanvasToCloud now1 canvasId s []).1 []).1.localStore =
      (Sync.syncCanvasToCloud now1 canvasId s []).1.localStore ∧
    (Sync.syncCanvasToCloud now2 canvasId
        (Sync.syncCanvasToCloud now1 canvasId s []).1 []).1.queue =
      (Sync.syncCanvasToCloud now1 canvasId s []).1.queue := by
  have h1 := syncCanvasToCloud_success now1 canvasId uid s lc hu hl
  have hu1 : (Sync.syncCanvasToCloud now1 canvasId s []).1.userId = some uid := by
    rw [h1]
    exact hu
  have hl1 : Db.getCanvas (Sync.syncCanvasToCloud now1 canvasId s []).1.localStore canvasId =
      some lc := by
    rw [h1]
    exact hl
  have h2 := syncCanvasToCloud_success now2 canvasId uid
    (Sync.syncCanvasToCloud now1 canvasId s []).1 lc hu1 hl1
  rw [h2, h1]
  simp only [remotePushEffect_tables]
  refine ⟨?_, ?_, trivial, trivial⟩
  · simp only [eraseRemoteTimes, RemoteStore.mk.injEq]
    refine ⟨?_, ?_, ?_⟩
    · exact (canvasPushStep_twice uid lc.name lc.updatedAt canvasId now1 now2
        s.remote.canvases).1
    · by_cases hemp : (Db.getCanvasNodes s.localStore canvasId).isEmpty = true
      · simp only [if_pos hemp]
      · simp only [if_neg hemp]
        exact nodesFold_twice_erased uid canvasId now1 now2
          (Db.getCanvasNodes s.localStore canvasId) s.remote.nodes hnl hnr
    · exact sessionsFold_twice_erased uid canvasId now1 now2
        (Db.getChatSessions s.localStore canvasId) s.remote.chatSessions hsl hsr
  · exact (canvasPushStep_twice uid lc.name lc.updatedAt canvasId now1 now2
      s.remote.canvases).2

/-- The one node of the idempotence scenario (updatedAt 500). -/
def idemScenarioNode : CanvasNode :=
  { id := "n1", type := NodeType.text, content := "note", position := { x := 0, y := 0 },
    size := { width := 300, height := 150 }, connections := [], aiMetadata := none,
    createdAt := 10, updatedAt := 500, color := none, style := none, parentId := none,
    childrenIds := none, mindMapMetadata := none }

/-- Scenario state: local canvas c1 holding one node, nothing remote yet. -/
def idempotenceScenarioState : SyncState :=
  { userId := some "u",
    localStore :=
      { canvases := [{ id := "c1", name := "Notes", nodes := ["n1"], createdAt := 0,
                       updatedAt := 50 }],
        nodes := [idemScenarioNode], chatSessions := [] },
    remote := { canvases := [], nodes := [], chatSessions := [] },
    queue := [], online := true, statusLog := [] }

/-- C6 counterexample: the second push is not a no-op on the remote store —
the re-upserted node row's updated_at is refreshed by the trigger (500 after
one call, 2000 after the second), so the two remote states differ. -/
theorem syncCanvasToCloud_twice_not_equal :
    ((Sync.syncCanvasToCloud 1000 "c1" idempotenceScenarioState []).1.remote.nodes.map
        RemoteNodeRow.updatedAt = [500]) ∧
    ((Sync.syncCanvasToCloud 2000 "c1"
        (Sync.syncCanvasToCloud 1000 "c1" idempotenceScenarioState []).1 []).1.remote.nodes.map
        RemoteNodeRow.updatedAt = [2000]) ∧
    (Sync.syncCanvasToCloud 2000 "c1"
        (Sync.syncCanvasToCloud 1000 "c1" idempotenceScenarioState []).1 []).1.remote ≠
      (Sync.syncCanvasToCloud 1000 "c1" idempotenceScenarioState []).1.remote := by
  have e1 : (Sync.syncCanvasToCloud 1000 "c1" idempotenceScenarioState []).1.remote.nodes.map
      RemoteNodeRow.updatedAt = [500] := by
    simp [Sync.syncCanvasToCloud, Sync.syncCanvasToCloudCore, Sync.pushNodesAndSessions,
      Sync.pushChatSessions, schedNext, Db.getCanvas, Db.getCanvasNodes, Db.getChatSessions,
      Supa.getCanvas, Supa.getCanvasRow, Supa.getCanvasNodes, Supa.dbNodeToCanvasNode,
      Supa.createCanvas, Supa.updateCanvas, Supa.bulkUpsertNodes, Supa.canvasNodeToInsertRow,
      Supa.stampNodeRow, Supa.saveChatSession, Supa.chatSessionToInsertRow,
      Supa.stampSessionRow, upsertByKey, idempotenceScenarioState, idemScenarioNode,
      List.mergeSort_singleton, List.mergeSort_nil, List.find?]
  have e2 : (Sync.syncCanvasToCloud 2000 "c1"
      (Sync.syncCanvasToCloud 1000 "c1" idempotenceScenarioState []).1 []).1.remote.nodes.map
      RemoteNodeRow.updatedAt = [2000] := by
    simp [Sync.syncCanvasToCloud, Sync.syncCanvasToCloudCore, Sync.pushNodesAndSessions,
      Sync.pushChatSessions, schedNext, Db.getCanvas, Db.getCanvasNodes, Db.getChatSessions,
      Supa.getCanvas, Supa.getCanvasRow, Supa.getCanvasNodes, Supa.dbNodeToCanvasNode,
      Supa.createCanvas, Supa.updateCanvas, Supa.bulkUpsertNodes, Supa.canvasNodeToInsertRow,
      Supa.stampNodeRow, Supa.saveChatSession, Supa.chatSessionToInsertRow,
      Supa.stampSessionRow, upsertByKey, idempotenceScenarioState, idemScenarioNode,
      List.mergeSort_singleton, List.mergeSort_nil, List.find?]
  refine ⟨e1, e2, fun h => ?_⟩
  rw [h, e1] at e2
  exact absurd e2 (by decide)

/-- C6 witness at the concrete one-node scenario. -/
theorem syncCanvasToCloud_idempotent_modulo_triggers_witness :
    eraseRemoteTimes (Sync.syncCanvasToCloud 2000 "c1"
        (Sync.syncCanvasToCloud 1000 "c1" idempotenceScenarioState []).1 []).1.remote =
      eraseRemoteTimes (Sync.syncCanvasToCloud 1000 "c1"
        idempotenceScenarioState []).1.remote ∧
    (Sync.syncCanvasToCloud 2000 "c1"
        (Sync.syncCanvasToCloud 1000 "c1"
          idempotenceScenarioState []).1 []).1.remote.canvases.map RemoteCanvasRow.id =
      (Sync.syncCanvasToCloud 1000 "c1" idempotenceScenarioState []).1.remote.canvases.map
        RemoteCanvasRow.id ∧
    (Sync.syncCanvasToCloud 2000 "c1"
        (Sync.syncCanvasToCloud 1000 "c1" idempotenceScenarioState []).1 []).1.localStore =
      (Sync.syncCanvasToCloud 1000 "c1" idempotenceScenarioState []).1.localStore ∧
    (Sync.syncCanvasToCloud 2000 "c1"
        (Sync.syncCanvasToCloud 1000 "c1" idempotenceScenarioState []).1 []).1.queue =
      (Sync.syncCanvasToCloud 1000 "c1" idempotenceScenarioState []).1.queue :=
  syncCanvasToCloud_idempotent_modulo_triggers 1000 2000 "c1" "u" idempotenceScenarioState
    { id := "c1", name := "Notes", nodes := ["n1"], createdAt := 0, updatedAt := 50 }
    rfl rfl
    (by simp [Db.getCanvasNodes, Db.getCanvas, idempotenceScenarioState, idemScenarioNode,
      List.find?])
    (by simp [idempotenceScenarioState])
    (by simp [Db.getChatSessions, idempotenceScenarioState, List.mergeSort_nil])
    (by simp [idempotenceScenarioState])
